import Mathlib

/-!
Verification development for the `tools/bindgen` binding-generation pipeline
(`libnativeapi/nativeapi`).  The Python sources are shallowly embedded:

* Python `str` values are Lean `String`s; the string operations the code uses
  (`startswith`, slicing, `str.format`, `re.sub` with the three fixed patterns
  of `naming.to_snake_case`, `str.title`, `sorted`, ...) are modelled as
  executable functions over `String.data` character lists.
* Python dictionaries are association lists (`List (key × value)`); `k in d`
  is `dictMem` and the subscript `d[k]` is the fallible `dictGet`
  (`Except`-valued, mirroring `KeyError`), so "never raises" claims are
  real theorems about the guards in the code.
* Python truthiness of optional strings / lists is modelled explicitly
  (`None` and `""` are falsy, etc.).
* Dataclasses become structures / inductives with the same field names and
  defaults (names are adjusted only where Lean's lexer requires it).
-/

namespace Bindgen

/-! ## Python string primitives (over `String.data` character lists) -/

/-- `s.startswith(p)` on Python strings. -/
def pyStartsWith (s p : String) : Bool := p.data.isPrefixOf s.data

/-- `s.endswith(p)` on Python strings. -/
def pyEndsWith (s p : String) : Bool := p.data.isSuffixOf s.data

/-- `len(s)` on Python strings. -/
def pyLen (s : String) : Nat := s.data.length

/-- The Python slice `s[n:]`. -/
def pySliceFrom (s : String) (n : Nat) : String := ⟨s.data.drop n⟩

/-- The Python slice `s[:-n]`.  Note the Python quirk: for `n = 0` this is
`s[:0] = ""`, not `s`. -/
def pySliceToNeg (s : String) (n : Nat) : String :=
  if n = 0 then "" else ⟨s.data.take (s.data.length - n)⟩

/-- The Python slice `s[:n]`. -/
def pySliceTo (s : String) (n : Nat) : String := ⟨s.data.take n⟩

/-- `s.lower()` (ASCII; the identifiers handled by the tool are ASCII). -/
def pyLower (s : String) : String := ⟨s.data.map Char.toLower⟩

/-- `s.upper()` (ASCII). -/
def pyUpper (s : String) : String := ⟨s.data.map Char.toUpper⟩

/-- Truthiness of a Python `Optional[str]`: `None` and `""` are falsy. -/
def pyTruthyOptStr : Option String → Bool
  | none => false
  | some s => !(s = "")

/-- `[A-Z]` of the `re` patterns in `naming.py`. -/
def isUpperAZ (c : Char) : Bool := decide ('A' ≤ c) && decide (c ≤ 'Z')

/-- `[a-z]` of the `re` patterns in `naming.py`. -/
def isLowerAZ (c : Char) : Bool := decide ('a' ≤ c) && decide (c ≤ 'z')

/-- `\d` of the `re` patterns in `naming.py` (ASCII digits). -/
def isDigitCh (c : Char) : Bool := decide ('0' ≤ c) && decide (c ≤ '9')

/-- `[-\s]` of the third `re.sub` in `to_snake_case` (ASCII whitespace). -/
def isHyphSpace (c : Char) : Bool :=
  c = '-' || c = ' ' || c = '\t' || c = '\n' || c = '\r' || c = '\x0b' || c = '\x0c'

/-- `re.sub(r"([A-Z]+)([A-Z][a-z])", r"\1_\2", s)`.  Because the pattern's
greedy `[A-Z]+` backtracks to leave exactly one uppercase letter before a
lowercase one, the substitution inserts `_` exactly before each uppercase
character that is preceded by an uppercase character and followed by a
lowercase character; consumed matches cannot overlap a later insertion
point, so the pointwise rule coincides with `re.sub`. -/
def sub1Aux : Option Char → List Char → List Char
  | _, [] => []
  | _, [c] => [c]
  | prev, c :: d :: rest =>
    if (match prev with | some p => isUpperAZ p | none => false)
        && isUpperAZ c && isLowerAZ d then
      '_' :: c :: sub1Aux (some c) (d :: rest)
    else
      c :: sub1Aux (some c) (d :: rest)

def pySub1 (l : List Char) : List Char := sub1Aux none l

/-- `re.sub(r"([a-z\d])([A-Z])", r"\1_\2", s)`: insert `_` between a
lowercase letter or digit and an uppercase letter (matches are two
characters long and cannot overlap a later match start). -/
def pySub2 : List Char → List Char
  | a :: b :: rest =>
    if (isLowerAZ a || isDigitCh a) && isUpperAZ b then
      a :: '_' :: pySub2 (b :: rest)
    else
      a :: pySub2 (b :: rest)
  | l => l

/-- `re.sub(r"[-\s]+", "_", s)`: each maximal run of hyphens/whitespace
becomes a single underscore.  The flag records whether the previous
character belonged to such a run. -/
def sub3Aux : Bool → List Char → List Char
  | _, [] => []
  | inRun, c :: rest =>
    if isHyphSpace c then
      if inRun then sub3Aux true rest else '_' :: sub3Aux true rest
    else
      c :: sub3Aux false rest

def pySub3 (l : List Char) : List Char := sub3Aux false l

/-- `naming.to_snake_case`. -/
def to_snake_case (s : String) : String :=
  ⟨(pySub3 (pySub2 (pySub1 s.data))).map Char.toLower⟩

/-- Python `str.title()`: a cased (here: ASCII-alphabetic) character is
uppercased when the previous character is not cased, lowercased otherwise. -/
def titleAux : Bool → List Char → List Char
  | _, [] => []
  | prevCased, c :: rest =>
    if c.isAlpha then
      (if prevCased then c.toLower else c.toUpper) :: titleAux true rest
    else
      c :: titleAux false rest

def pyTitle (l : List Char) : List Char := titleAux false l

/-- Python `s.split(sep)` for a single-character separator. -/
def splitCh (c : Char) : List Char → List (List Char)
  | [] => [[]]
  | x :: xs =>
    match splitCh c xs with
    | r :: rs => if x == c then [] :: r :: rs else (x :: r) :: rs
    | [] => [[x]]

/-- Python `s.split(sep)` / `str.replace` splitting for a multi-character
separator; fuelled so the definition is structurally recursive and
kernel-reducible.  `splitSeq` instantiates the fuel with the input length,
which is always sufficient. -/
def splitSeqF (sep : List Char) : Nat → List Char → List (List Char)
  | _, [] => [[]]
  | 0, l => [l]
  | fuel + 1, x :: xs =>
    if sep ≠ [] && sep.isPrefixOf (x :: xs) then
      [] :: splitSeqF sep fuel ((x :: xs).drop sep.length)
    else
      match splitSeqF sep fuel xs with
      | r :: rs => (x :: r) :: rs
      | [] => [[x]]

def splitSeq (sep l : List Char) : List (List Char) := splitSeqF sep l.length l

def intercalateL (sep : List Char) : List (List Char) → List Char
  | [] => []
  | [l] => l
  | l :: ls => l ++ sep ++ intercalateL sep ls

/-- Python `needle in hay` on strings (substring containment; the empty
string is contained in everything). -/
def containsSeq (needle : List Char) : List Char → Bool
  | [] => needle.isEmpty
  | x :: xs => needle.isPrefixOf (x :: xs) || containsSeq needle xs

/-- Python `s.replace(old, new)` (left-to-right, non-overlapping, substituted
text is not rescanned). -/
def pyReplace (s old new : String) : String :=
  ⟨intercalateL new.data (splitSeq old.data s.data)⟩

/-- Python `fmt.format(key=val)` for a format string whose only replacement
field is the simple name `key` (the documented shape of the config format
strings, e.g. `"Pointer<{inner}>"`).  Substituted text is not rescanned. -/
def pyFormat1 (fmt key val : String) : String :=
  ⟨intercalateL val.data (splitSeq ("\x7b" ++ key ++ "\x7d").data fmt.data)⟩

/-- Python `fmt.format(element=e, length=n)` for the array format string:
simultaneous substitution of the two documented fields. -/
def pyFormat2 (fmt key1 val1 key2 val2 : String) : String :=
  let pieces := splitSeq ("\x7b" ++ key1 ++ "\x7d").data fmt.data
  ⟨intercalateL val1.data (pieces.map (fun p => (pyFormat1 ⟨p⟩ key2 val2).data))⟩

/-! ## Python `sorted` (stable) -/

/-- Stable insertion of `x` into a list sorted w.r.t. `le`: `x` is placed
before the first element `y` with `le x y`; together with `isort`'s
right-to-left processing this reproduces the result of any stable sort
(such as Python's `sorted`). -/
def sinsert (le : α → α → Bool) (x : α) : List α → List α
  | [] => [x]
  | y :: ys => if le x y then x :: y :: ys else y :: sinsert le x ys

/-- A stable sort, extensionally equal to Python `sorted(l, key/cmp = le)`
for any total preorder `le`. -/
def isort (le : α → α → Bool) : List α → List α
  | [] => []
  | x :: xs => sinsert le x (isort le xs)

/-- The comparison used by `sorted(prefixes, key=len, reverse=True)`:
descending by length, stable on ties. -/
def lenDescLe (a b : String) : Bool := decide (b.data.length ≤ a.data.length)

/-- `sorted(l, key=len, reverse=True)` (stable). -/
def sortByLenDesc (l : List String) : List String := isort lenDescLe l

/-- Lexicographic comparison of character lists by code point: the order
Python uses to compare strings.  (Defined directly so it evaluates in the
kernel.) -/
def listLeCh : List Char → List Char → Bool
  | [], _ => true
  | _ :: _, [] => false
  | a :: as, b :: bs => if a < b then true else if b < a then false else listLeCh as bs

/-- Python `<=` on strings (lexicographic by code point), as a Bool. -/
def strLeB (a b : String) : Bool := listLeCh a.data b.data

/-- `sorted(keys)` on strings. -/
def pySortedStr (l : List String) : List String := isort strLeB l

/-! ## `codegen/naming.py` -/

/-- `naming.to_camel_case`. -/
def to_camel_case (s : String) : String :=
  let s' := to_snake_case s
  let parts := splitCh '_' s'.data
  match parts with
  | [] => s'
  | p0 :: rest => ⟨p0.map Char.toLower ++ (rest.map pyTitle).flatten⟩

/-- `naming.to_pascal_case`. -/
def to_pascal_case (s : String) : String :=
  let s' := to_snake_case s
  ⟨((splitCh '_' s'.data).map pyTitle).flatten⟩

/-- `naming.to_screaming_snake_case`. -/
def to_screaming_snake_case (s : String) : String := pyUpper (to_snake_case s)

/-- `naming.to_kebab_case`. -/
def to_kebab_case (s : String) : String :=
  ⟨(to_snake_case s).data.map (fun c => if c = '_' then '-' else c)⟩

/-- `naming.apply_style`. -/
def apply_style (name style : String) : String :=
  if style = "original" || style = "" then name
  else if style = "snake_case" then to_snake_case name
  else if style = "camel_case" then to_camel_case name
  else if style = "pascal_case" then to_pascal_case name
  else if style = "screaming_snake_case" then to_screaming_snake_case name
  else if style = "kebab_case" then to_kebab_case name
  else name

/-- `naming.strip_affixes`: strip at most one prefix and at most one suffix,
trying longest first (Python's stable `sorted(..., key=len, reverse=True)`
followed by a first-match loop with `break`). -/
def strip_affixes (name : String) (prefixes suffixes : List String) : String :=
  let afterPre :=
    match (sortByLenDesc prefixes).find? (fun p => pyStartsWith name p) with
    | some p => pySliceFrom name (pyLen p)
    | none => name
  match (sortByLenDesc suffixes).find? (fun sfx => pyEndsWith afterPre sfx) with
  | some sfx => pySliceToNeg afterPre (pyLen sfx)
  | none => afterPre

/-- `naming.add_affixes` (`add_prefix` / `add_suffix` are renamed `addPre` /
`addSuf` for the Lean lexer). -/
def add_affixes (name addPre addSuf : String) : String := addPre ++ name ++ addSuf

/-- `naming.transform_name`: strip → style → add. -/
def transform_name (name style : String) (strip_prefixes strip_suffixes : List String)
    (addPre addSuf : String) : String :=
  add_affixes (apply_style (strip_affixes name strip_prefixes strip_suffixes) style) addPre addSuf

/-- `config.NamingConfig` (field `add_prefix` renamed `addPre`, `add_suffix`
renamed `addSuf`). -/
structure NamingConfig where
  file_name : String := "original"
  type_name : String := "original"
  enum_name : String := "original"
  enum_value_name : String := "original"
  function_name : String := "original"
  method_name : String := "original"
  class_name : String := "original"
  field_name : String := "original"
  param_name : String := "original"
  constant_name : String := "original"
  alias_name : String := "original"
  strip_prefixes : List String := []
  strip_suffixes : List String := []
  addPre : String := ""
  addSuf : String := ""
  deriving Repr, DecidableEq

/-- `NameTransformer._transform`. -/
def NameTransformer.transform (cfg : NamingConfig) (name style : String) : String :=
  transform_name name style cfg.strip_prefixes cfg.strip_suffixes cfg.addPre cfg.addSuf

def NameTransformer.fileName (cfg : NamingConfig) (name : String) : String :=
  NameTransformer.transform cfg name cfg.file_name

def NameTransformer.typeName (cfg : NamingConfig) (name : String) : String :=
  NameTransformer.transform cfg name cfg.type_name

def NameTransformer.enumName (cfg : NamingConfig) (name : String) : String :=
  NameTransformer.transform cfg name cfg.enum_name

def NameTransformer.enumValueName (cfg : NamingConfig) (name : String) : String :=
  NameTransformer.transform cfg name cfg.enum_value_name

def NameTransformer.functionName (cfg : NamingConfig) (name : String) : String :=
  NameTransformer.transform cfg name cfg.function_name

def NameTransformer.methodName (cfg : NamingConfig) (name : String) : String :=
  NameTransformer.transform cfg name cfg.method_name

def NameTransformer.className (cfg : NamingConfig) (name : String) : String :=
  NameTransformer.transform cfg name cfg.class_name

def NameTransformer.fieldName (cfg : NamingConfig) (name : String) : String :=
  NameTransformer.transform cfg name cfg.field_name

def NameTransformer.paramName (cfg : NamingConfig) (name : String) : String :=
  NameTransformer.transform cfg name cfg.param_name

def NameTransformer.constantName (cfg : NamingConfig) (name : String) : String :=
  NameTransformer.transform cfg name cfg.constant_name

def NameTransformer.aliasName (cfg : NamingConfig) (name : String) : String :=
  NameTransformer.transform cfg name cfg.alias_name

/-! ## Python dictionaries as association lists -/

instance {ε α : Type} [DecidableEq ε] [DecidableEq α] : DecidableEq (Except ε α)
  | .error e1, .error e2 => decidable_of_iff (e1 = e2) (by simp)
  | .error _, .ok _ => isFalse (fun h => by cases h)
  | .ok _, .error _ => isFalse (fun h => by cases h)
  | .ok a1, .ok a2 => decidable_of_iff (a1 = a2) (by simp)

/-- `k in d` on a Python dict. -/
def dictMem (d : List (String × α)) (k : String) : Bool := (d.lookup k).isSome

/-- The subscript `d[k]`: raises `KeyError` when the key is absent. -/
def dictGet (d : List (String × α)) (k : String) : Except String α :=
  match d.lookup k with
  | some v => .ok v
  | none => .error ("KeyError: " ++ k)

/-- `d.get(k, dflt)`. -/
def dictGetD (d : List (String × α)) (k : String) (dflt : α) : α := (d.lookup k).getD dflt

/-- Python `a or b` for `a : Optional[str]` (`None` and `""` are falsy). -/
def pyOrStr (o : Option String) (dflt : String) : String :=
  match o with
  | some s => if s = "" then dflt else s
  | none => dflt

/-! ## `ir/model.py` -/

/-- `IRType` (recursive through the `Option`-valued `to`/`element` fields, so
it is an inductive with explicit field accessors).  The Python field `to` is
renamed `toTy` and `scoped` is renamed `scopedFlag` (both are reserved in
Lean); `length` is a Python `int`,
modelled as `Int`. -/
inductive IRType where
  | mk (kind : String) (name : Option String) (toTy : Option IRType)
       (element : Option IRType) (length : Option Int)
       (qualifiers : List String) (scopedFlag : Option Bool)
  deriving Repr

/-- Decidable equality for the nested inductive `IRType` (the automatic
derivation does not support nesting through `Option`). -/
def IRType.decEq : (a b : IRType) → Decidable (a = b)
  | .mk k1 n1 t1 e1 l1 q1 s1, .mk k2 n2 t2 e2 l2 q2 s2 =>
    have dt : Decidable (t1 = t2) :=
      match t1, t2 with
      | none, none => isTrue rfl
      | some _, none => isFalse (fun h => by cases h)
      | none, some _ => isFalse (fun h => by cases h)
      | some x, some y =>
        match IRType.decEq x y with
        | isTrue h => isTrue (h ▸ rfl)
        | isFalse h => isFalse (fun hh => h (by cases hh; rfl))
    have de : Decidable (e1 = e2) :=
      match e1, e2 with
      | none, none => isTrue rfl
      | some _, none => isFalse (fun h => by cases h)
      | none, some _ => isFalse (fun h => by cases h)
      | some x, some y =>
        match IRType.decEq x y with
        | isTrue h => isTrue (h ▸ rfl)
        | isFalse h => isFalse (fun hh => h (by cases hh; rfl))
    letI := dt
    letI := de
    decidable_of_iff (k1 = k2 ∧ n1 = n2 ∧ t1 = t2 ∧ e1 = e2 ∧ l1 = l2 ∧ q1 = q2 ∧ s1 = s2)
      (by simp [IRType.mk.injEq])

instance : DecidableEq IRType := IRType.decEq

def IRType.kind : IRType → String | .mk k _ _ _ _ _ _ => k

def IRType.name : IRType → Option String | .mk _ n _ _ _ _ _ => n

def IRType.toTy : IRType → Option IRType | .mk _ _ t _ _ _ _ => t

def IRType.element : IRType → Option IRType | .mk _ _ _ e _ _ _ => e

def IRType.length : IRType → Option Int | .mk _ _ _ _ l _ _ => l

def IRType.qualifiers : IRType → List String | .mk _ _ _ _ _ q _ => q

def IRType.scopedFlag : IRType → Option Bool | .mk _ _ _ _ _ _ s => s

/-- A convenience constructor matching `IRType(kind=...)` with Python's
dataclass defaults. -/
def IRType.simple (kind : String) (name : Option String := none) : IRType :=
  .mk kind name none none none [] none

structure IRField where
  name : String
  type : IRType
  deriving Repr, DecidableEq

structure IREnumValue where
  name : String
  value : Int
  deriving Repr, DecidableEq

structure IRParam where
  name : String
  type : IRType
  nullable : Bool := false
  direction : Option String := none
  deriving Repr, DecidableEq

structure IRMethod where
  name : String
  return_type : IRType
  params : List IRParam := []
  kind : String := "method"
  static : Bool := false
  const : Bool := false
  access : Option String := none
  variadic : Bool := false
  deriving Repr, DecidableEq

structure IRStruct where
  name : String := ""
  fields : List IRField := []
  qualified_name : Option String := none
  deriving Repr, DecidableEq

structure IREnum where
  name : String := ""
  values : List IREnumValue := []
  scopedFlag : Bool := false
  qualified_name : Option String := none
  deriving Repr, DecidableEq

structure IRAlias where
  name : String := ""
  target : Option IRType := none
  deriving Repr, DecidableEq

structure IRFunction where
  name : String := ""
  return_type : Option IRType := none
  params : List IRParam := []
  callconv : Option String := none
  variadic : Bool := false
  qualified_name : Option String := none
  deriving Repr, DecidableEq

structure IRClass where
  name : String := ""
  fields : List IRField := []
  methods : List IRMethod := []
  bases : List String := []
  qualified_name : Option String := none
  deriving Repr, DecidableEq

/-- The value of an `IRConstant` (`Union[int, float, str]`; `float` values
are outside this model, which covers the integer and string constants the
macro parser produces). -/
inductive PyVal where
  | int (n : Int)
  | str (s : String)
  deriving Repr, DecidableEq

structure IRConstant where
  name : String := ""
  type : Option IRType := none
  value : PyVal := .int 0
  deriving Repr, DecidableEq

/-- `IRItem = Union[IRStruct, IREnum, IRAlias, IRFunction, IRClass, IRConstant]`. -/
inductive IRItem where
  | struct (s : IRStruct)
  | enum (e : IREnum)
  | alias (a : IRAlias)
  | func (f : IRFunction)
  | cls (c : IRClass)
  | const (k : IRConstant)
  deriving Repr, DecidableEq

/-- `item.name` (every `IRItem` variant has a `name` field). -/
def IRItem.name : IRItem → String
  | .struct s => s.name
  | .enum e => e.name
  | .alias a => a.name
  | .func f => f.name
  | .cls c => c.name
  | .const k => k.name

structure IRFile where
  items : List IRItem := []
  deriving Repr, DecidableEq

/-- `IRModule.files : Dict[str, IRFile]` as an insertion-ordered association
list (Python dicts preserve insertion order). -/
structure IRModule where
  files : List (String × IRFile) := []
  deriving Repr, DecidableEq

/-! ## `config.py` (mapping configuration) -/

/-- One entry of the `param_bridges` option list (the typed view that
`TypeMapper.__init__` extracts from the raw options dictionary). -/
structure ParamBridge where
  type_key : Option String := none
  api_type : String := ""
  symbol_suffixes : List String := []
  args : List String := []
  deriving Repr, DecidableEq

/-- The typed options that `TypeMapper.__init__` extracts from
`MappingConfig.options` (`symbol_overrides`, `singleton_classes`,
`cstring_free_symbols`, `bridge_types`, `api_type_rules.exact`,
`api_type_rules.contains`, `return_bridge_map`, `param_bridges`). -/
structure MapperOptions where
  symbol_overrides : List (String × String) := []
  singleton_classes : List String := []
  cstring_free_symbols : List (String × String) := []
  bridge_types : List (String × String) := []
  api_type_exact : List (String × String) := []
  api_type_contains : List (String × String) := []
  return_bridge_map : List (String × String) := []
  param_bridges : List ParamBridge := []
  deriving Repr, DecidableEq

/-- `config.MappingConfig` (`type_prefix` / `type_suffix` are renamed
`typePre` / `typeSuf` for the Lean lexer). -/
structure MappingConfig where
  language : String := "default"
  types : List (String × String) := []
  pointer_format : String := "{inner}*"
  const_pointer_format : String := "const {inner}*"
  array_format : String := "{element}[{length}]"
  reference_format : String := "{inner}&"
  default_type : Option String := none
  passthrough_unknown : Bool := true
  typePre : String := ""
  typeSuf : String := ""
  void_pointer_type : Option String := none
  const_char_pointer_type : Option String := none
  naming : NamingConfig := {}
  options : MapperOptions := {}
  deriving Repr, DecidableEq

/-! ## `codegen/context.py`: mapped data model -/

/-- `MappedType` (recursive through `inner`/`element`). -/
inductive MappedType where
  | mk (mapped : String) (raw : IRType) (kind : String) (name : Option String)
       (is_pointer is_array is_void is_const : Bool)
       (inner : Option MappedType) (element : Option MappedType)
       (length : Option Int)
  deriving Repr

/-- Decidable equality for the nested inductive `MappedType`. -/
def MappedType.decEq : (a b : MappedType) → Decidable (a = b)
  | .mk m1 r1 k1 n1 p1 a1 v1 c1 i1 e1 l1, .mk m2 r2 k2 n2 p2 a2 v2 c2 i2 e2 l2 =>
    have di : Decidable (i1 = i2) :=
      match i1, i2 with
      | none, none => isTrue rfl
      | some _, none => isFalse (fun h => by cases h)
      | none, some _ => isFalse (fun h => by cases h)
      | some x, some y =>
        match MappedType.decEq x y with
        | isTrue h => isTrue (h ▸ rfl)
        | isFalse h => isFalse (fun hh => h (by cases hh; rfl))
    have de : Decidable (e1 = e2) :=
      match e1, e2 with
      | none, none => isTrue rfl
      | some _, none => isFalse (fun h => by cases h)
      | none, some _ => isFalse (fun h => by cases h)
      | some x, some y =>
        match MappedType.decEq x y with
        | isTrue h => isTrue (h ▸ rfl)
        | isFalse h => isFalse (fun hh => h (by cases hh; rfl))
    letI := di
    letI := de
    decidable_of_iff (m1 = m2 ∧ r1 = r2 ∧ k1 = k2 ∧ n1 = n2 ∧ p1 = p2 ∧ a1 = a2 ∧
        v1 = v2 ∧ c1 = c2 ∧ i1 = i2 ∧ e1 = e2 ∧ l1 = l2)
      (by simp [MappedType.mk.injEq])

instance : DecidableEq MappedType := MappedType.decEq

def MappedType.mapped : MappedType → String | .mk m _ _ _ _ _ _ _ _ _ _ => m

def MappedType.raw : MappedType → IRType | .mk _ r _ _ _ _ _ _ _ _ _ => r

def MappedType.kind : MappedType → String | .mk _ _ k _ _ _ _ _ _ _ _ => k

def MappedType.name : MappedType → Option String | .mk _ _ _ n _ _ _ _ _ _ _ => n

def MappedType.is_pointer : MappedType → Bool | .mk _ _ _ _ p _ _ _ _ _ _ => p

def MappedType.is_array : MappedType → Bool | .mk _ _ _ _ _ a _ _ _ _ _ => a

def MappedType.is_void : MappedType → Bool | .mk _ _ _ _ _ _ v _ _ _ _ => v

def MappedType.is_const : MappedType → Bool | .mk _ _ _ _ _ _ _ c _ _ _ => c

def MappedType.inner : MappedType → Option MappedType | .mk _ _ _ _ _ _ _ _ i _ _ => i

def MappedType.element : MappedType → Option MappedType | .mk _ _ _ _ _ _ _ _ _ e _ => e

def MappedType.length : MappedType → Option Int | .mk _ _ _ _ _ _ _ _ _ _ l => l

structure MappedField where
  name : String
  type : MappedType
  raw : Option IRField := none
  deriving Repr, DecidableEq

structure MappedParam where
  name : String
  type : MappedType
  api_type : String := ""
  call_args : List String := []
  nullable : Bool := false
  direction : Option String := none
  raw : Option IRParam := none
  deriving Repr, DecidableEq

structure MappedStruct where
  kind : String := "struct"
  name : String := ""
  fields : List MappedField := []
  qualified_name : Option String := none
  raw : Option IRStruct := none
  deriving Repr, DecidableEq

structure MappedEnumValue where
  name : String := ""
  value : Int := 0
  deriving Repr, DecidableEq

structure MappedEnum where
  kind : String := "enum"
  name : String := ""
  values : List MappedEnumValue := []
  scopedFlag : Bool := false
  qualified_name : Option String := none
  raw : Option IREnum := none
  deriving Repr, DecidableEq

structure MappedAlias where
  kind : String := "alias"
  name : String := ""
  target : Option MappedType := none
  raw : Option IRAlias := none
  deriving Repr, DecidableEq

structure MappedFunction where
  kind : String := "function"
  name : String := ""
  api_name : String := ""
  return_type : Option MappedType := none
  api_return_type : String := ""
  return_bridge : String := "void"
  params : List MappedParam := []
  call_symbol : String := ""
  call_args : List String := []
  string_free_symbol : String := ""
  callconv : Option String := none
  variadic : Bool := false
  qualified_name : Option String := none
  raw : Option IRFunction := none
  deriving Repr, DecidableEq

structure MappedMethod where
  name : String := ""
  raw_name : String := ""
  api_name : String := ""
  return_type : Option MappedType := none
  api_return_type : String := ""
  return_bridge : String := "void"
  params : List MappedParam := []
  call_symbol : String := ""
  call_args : List String := []
  string_free_symbol : String := ""
  skip : Bool := false
  is_property : Bool := false
  property_name : String := ""
  method_kind : String := "method"
  static : Bool := false
  needs_instance_handle : Bool := false
  const : Bool := false
  access : Option String := none
  variadic : Bool := false
  raw : Option IRMethod := none
  deriving Repr, DecidableEq

structure MappedClass where
  kind : String := "class"
  name : String := ""
  fields : List MappedField := []
  methods : List MappedMethod := []
  bases : List String := []
  handle_alias : String := ""
  is_singleton : Bool := false
  singleton_symbol : String := ""
  qualified_name : Option String := none
  raw : Option IRClass := none
  deriving Repr, DecidableEq

structure MappedConstant where
  kind : String := "constant"
  name : String := ""
  type : Option MappedType := none
  value : PyVal := .int 0
  raw : Option IRConstant := none
  deriving Repr, DecidableEq

inductive MappedItem where
  | struct (s : MappedStruct)
  | enum (e : MappedEnum)
  | alias (a : MappedAlias)
  | func (f : MappedFunction)
  | cls (c : MappedClass)
  | const (k : MappedConstant)
  deriving Repr, DecidableEq

structure MappedFile where
  items : List MappedItem := []
  raw : Option IRFile := none
  deriving Repr, DecidableEq

/-- `MappedFile.types` (the `@property` filtering `MappedStruct` items, in
intra-file order). -/
def MappedFile.types (f : MappedFile) : List MappedStruct :=
  f.items.filterMap (fun i => match i with | .struct s => some s | _ => none)

def MappedFile.enums (f : MappedFile) : List MappedEnum :=
  f.items.filterMap (fun i => match i with | .enum e => some e | _ => none)

def MappedFile.aliases (f : MappedFile) : List MappedAlias :=
  f.items.filterMap (fun i => match i with | .alias a => some a | _ => none)

def MappedFile.functions (f : MappedFile) : List MappedFunction :=
  f.items.filterMap (fun i => match i with | .func g => some g | _ => none)

def MappedFile.classes (f : MappedFile) : List MappedClass :=
  f.items.filterMap (fun i => match i with | .cls c => some c | _ => none)

def MappedFile.constants (f : MappedFile) : List MappedConstant :=
  f.items.filterMap (fun i => match i with | .const k => some k | _ => none)

/-! ## `codegen/context.py`: `TypeMapper`

Each Python method becomes a function taking the `MappingConfig` (the
`TypeMapper` object state is just the config plus views derived from it).
Functions that perform a dict subscript are `Except`-valued. -/

/-- `TypeMapper._lookup_type`. -/
def lookupType (cfg : MappingConfig) (type_name : String) (is_const : Bool) :
    Except String String :=
  if is_const && dictMem cfg.types ("const " ++ type_name) then
    dictGet cfg.types ("const " ++ type_name)
  else if dictMem cfg.types type_name then do
    let mapped ← dictGet cfg.types type_name
    pure (cfg.typePre ++ mapped ++ cfg.typeSuf)
  else if cfg.passthrough_unknown then
    pure (cfg.typePre ++ type_name ++ cfg.typeSuf)
  else if pyTruthyOptStr cfg.default_type then
    pure (cfg.default_type.getD "")
  else
    pure type_name

/-- The kinds grouped by the `named` branch of `map_type`. -/
def namedKinds : List String := ["named", "struct", "enum", "class", "typedef", "elaborated"]

/-- The `inner_str`/`element_str` computation of the pointer, array and
reference branches of `map_type` (`"void"` when the inner type is absent). -/
def innerStrOf : Option MappedType → String
  | some m => m.mapped
  | none => "void"

/-- The `ptr_key` computation of `map_type`'s pointer branch. -/
def ptrKeyOf : Option IRType → Option String
  | some u =>
    if u.kind = "void" then some "void*"
    else if u.kind = "primitive" && pyTruthyOptStr u.name then some (u.name.getD "" ++ "*")
    else if pyTruthyOptStr u.name then some (u.name.getD "" ++ "*")
    else none
  | none => some "void*"

/-- The `mapped_str` resolution of `map_type`'s pointer branch (the
`if is_const and ptr_key:` chain and its `else` chain). -/
def ptrMappedStr (cfg : MappingConfig) (is_const : Bool) (ptr_key : Option String)
    (inner_str : String) : Except String String :=
  if is_const && pyTruthyOptStr ptr_key then
    let pk := ptr_key.getD ""
    if dictMem cfg.types ("const " ++ pk) then dictGet cfg.types ("const " ++ pk)
    else if dictMem cfg.types pk then dictGet cfg.types pk
    else if pyTruthyOptStr cfg.void_pointer_type && pk = "void*" then
      pure (cfg.void_pointer_type.getD "")
    else if pyTruthyOptStr cfg.const_char_pointer_type && pk = "char*" then
      pure (cfg.const_char_pointer_type.getD "")
    else
      pure (pyFormat1 cfg.const_pointer_format "inner" inner_str)
  else if pyTruthyOptStr ptr_key && dictMem cfg.types (ptr_key.getD "") then
    dictGet cfg.types (ptr_key.getD "")
  else if pyTruthyOptStr cfg.void_pointer_type && ptr_key = some "void*" then
    pure (cfg.void_pointer_type.getD "")
  else
    pure (pyFormat1 cfg.pointer_format "inner" inner_str)

/-- The rest of `map_type`'s pointer branch, once the pointee has been
recursively mapped. -/
def mapTypePointerRest (cfg : MappingConfig) (t : IRType) (is_const : Bool)
    (toTy : Option IRType) (inner_mapped : Option MappedType) :
    Except String MappedType := do
  let mapped_str ← ptrMappedStr cfg is_const (ptrKeyOf toTy) (innerStrOf inner_mapped)
  pure (.mk mapped_str t "pointer" none true false false is_const inner_mapped none none)

/-- The rest of `map_type`'s array branch. -/
def mapTypeArrayRest (cfg : MappingConfig) (t : IRType) (is_const : Bool)
    (element_mapped : Option MappedType) (length : Option Int) : MappedType :=
  .mk (pyFormat2 cfg.array_format "element" (innerStrOf element_mapped)
        "length" (toString (length.getD 0)))
    t "array" none false true false is_const none element_mapped length

/-- The rest of `map_type`'s reference branch. -/
def mapTypeRefRest (cfg : MappingConfig) (t : IRType) (is_const : Bool)
    (inner_mapped : Option MappedType) : MappedType :=
  .mk (pyFormat1 cfg.reference_format "inner" (innerStrOf inner_mapped))
    t "reference" none false false false is_const inner_mapped none none

/-- `map_type`'s primitive branch. -/
def mapTypePrimitive (cfg : MappingConfig) (t : IRType) (name : Option String)
    (is_const : Bool) : Except String MappedType := do
  let type_name := pyOrStr name "int"
  pure (.mk (← lookupType cfg type_name is_const) t "primitive" (some type_name)
    false false false is_const none none none)

/-- `map_type`'s named-kinds branch. -/
def mapTypeNamed (cfg : MappingConfig) (t : IRType) (kind : String) (name : Option String)
    (is_const : Bool) : Except String MappedType := do
  let type_name := pyOrStr name "unknown"
  pure (.mk (← lookupType cfg type_name is_const) t kind (some type_name)
    false false false is_const none none none)

/-- `map_type`'s final fallback branch (`type_name = ir_type.name or kind`;
the resulting `name` field keeps the original optional name). -/
def mapTypeFallback (cfg : MappingConfig) (t : IRType) (kind : String) (name : Option String)
    (is_const : Bool) : Except String MappedType := do
  let type_name := pyOrStr name kind
  pure (.mk (← lookupType cfg type_name is_const) t kind name
    false false false is_const none none none)

/-- The body of `TypeMapper.map_type` for a non-`None` argument (the `None`
case is split off into `mapType` below, matching the early return in the
source).  The per-branch straight-line code lives in the branch helpers
above; this function carries the branch dispatch and the recursive mapping
of pointee/element types. -/
def mapTypeCore (cfg : MappingConfig) : IRType → Except String MappedType
  | t@(.mk kind name toTy element length qualifiers _scoped) =>
    let is_const := qualifiers.contains "const"
    if kind = "void" then
      pure (.mk (dictGetD cfg.types "void" "void") t kind none false false true is_const
        none none none)
    else if kind = "pointer" then do
      let inner_mapped : Option MappedType ←
        match toTy with
        | some u => do pure (some (← mapTypeCore cfg u))
        | none => pure none
      mapTypePointerRest cfg t is_const toTy inner_mapped
    else if kind = "array" then do
      let element_mapped : Option MappedType ←
        match element with
        | some e => do pure (some (← mapTypeCore cfg e))
        | none => pure none
      pure (mapTypeArrayRest cfg t is_const element_mapped length)
    else if kind = "reference" then do
      let inner_mapped : Option MappedType ←
        match toTy with
        | some u => do pure (some (← mapTypeCore cfg u))
        | none => pure none
      pure (mapTypeRefRest cfg t is_const inner_mapped)
    else if kind = "primitive" then
      mapTypePrimitive cfg t name is_const
    else if namedKinds.contains kind then
      mapTypeNamed cfg t kind name is_const
    else if kind = "function_pointer" then
      pure (.mk (dictGetD cfg.types "function_pointer" "FunctionPointer") t kind none
        false false false is_const none none none)
    else
      mapTypeFallback cfg t kind name is_const

/-- `TypeMapper.map_type` (with its `Optional[IRType]` argument). -/
def mapType (cfg : MappingConfig) : Option IRType → Except String MappedType
  | none => pure (.mk "void" (IRType.simple "void") "void" none false false true false
      none none none)
  | some t => mapTypeCore cfg t

/-- `TypeMapper._api_void_type`. -/
def apiVoidType (cfg : MappingConfig) : String := dictGetD cfg.types "void" "void"

/-- `TypeMapper._api_type`. -/
def apiType (cfg : MappingConfig) : Option MappedType → Except String String
  | none => pure (apiVoidType cfg)
  | some mt =>
    if dictMem cfg.options.api_type_exact mt.mapped then
      dictGet cfg.options.api_type_exact mt.mapped
    else
      match cfg.options.api_type_contains.find?
          (fun pr => containsSeq pr.1.data mt.mapped.data) with
      | some pr => pure pr.2
      | none => pure mt.mapped

/-- `TypeMapper._return_bridge`. -/
def returnBridge (cfg : MappingConfig) (api_type : String)
    (return_type : Option MappedType) : String :=
  match return_type with
  | none => "void"
  | some rt =>
    if rt.kind = "void" then "void"
    else dictGetD cfg.options.return_bridge_map api_type "plain"

/-- `TypeMapper._symbol_for_function`. -/
def symbolForFunction (cfg : MappingConfig) (f : IRFunction) : String :=
  dictGetD cfg.options.symbol_overrides (pyOrStr f.qualified_name f.name)
    ("native_" ++ to_snake_case f.name)

/-- `TypeMapper._symbol_for_method`. -/
def symbolForMethod (cfg : MappingConfig) (c : IRClass) (m : IRMethod) : String :=
  let class_key := pyOrStr c.qualified_name c.name
  dictGetD cfg.options.symbol_overrides (class_key ++ "::" ++ m.name)
    ("native_" ++ to_snake_case c.name ++ "_" ++ to_snake_case m.name)

/-- `TypeMapper._symbol_for_singleton`. -/
def symbolForSingleton (cfg : MappingConfig) (c : IRClass) : String :=
  let class_key := pyOrStr c.qualified_name c.name
  dictGetD cfg.options.symbol_overrides (class_key ++ "::GetInstance")
    ("native_" ++ to_snake_case c.name ++ "_get_instance")

/-- `TypeMapper._default_bridge_type`. -/
def defaultBridgeType (cfg : MappingConfig) (key : String) : String :=
  dictGetD cfg.options.bridge_types key ""

/-- The scan of `TypeMapper._param_call_args` over the bridge rule list
(`continue` becomes recursion on the remaining rules). -/
def paramCallArgsGo (cfg : MappingConfig) (param : MappedParam) (symbol : String) :
    List ParamBridge → List String
  | [] => [param.name]
  | bridge :: rest =>
    let api_type :=
      if pyTruthyOptStr bridge.type_key then defaultBridgeType cfg (bridge.type_key.getD "")
      else bridge.api_type
    if api_type ≠ "" && param.api_type ≠ api_type then
      paramCallArgsGo cfg param symbol rest
    else if bridge.symbol_suffixes ≠ [] &&
        !(bridge.symbol_suffixes.any (fun sfx => pyEndsWith symbol sfx)) then
      paramCallArgsGo cfg param symbol rest
    else if bridge.args ≠ [] then
      bridge.args.map (fun t => pyReplace t "{name}" param.name)
    else
      paramCallArgsGo cfg param symbol rest

/-- `TypeMapper._param_call_args`. -/
def paramCallArgs (cfg : MappingConfig) (param : MappedParam) (symbol : String) :
    List String :=
  paramCallArgsGo cfg param symbol cfg.options.param_bridges

/-- `TypeMapper._string_free_symbol`. -/
def stringFreeSymbol (cfg : MappingConfig) (symbol : String) : String :=
  if cfg.options.cstring_free_symbols = [] then "free_c_str"
  else
    match cfg.options.cstring_free_symbols.find?
        (fun kv => kv.1 ≠ "default" && kv.1 ≠ "" && containsSeq kv.1.data symbol.data) with
    | some kv => kv.2
    | none => dictGetD cfg.options.cstring_free_symbols "default" "free_c_str"

/-- `TypeMapper._getter_property_name`. -/
def getterPropertyName (raw_name : String) : String :=
  if !(pyStartsWith raw_name "Get") || pyLen raw_name ≤ 3 then raw_name
  else
    let rest := pySliceFrom raw_name 3
    pyLower (pySliceTo rest 1) ++ pySliceFrom rest 1

/-- Monadic `map` over a list (the list comprehensions of `context.py`,
with exceptions propagating). -/
def mapE (f : α → Except ε β) : List α → Except ε (List β)
  | [] => pure []
  | a :: as => do pure ((← f a) :: (← mapE f as))

/-- `TypeMapper.map_field`. -/
def mapField (cfg : MappingConfig) (f : IRField) : Except String MappedField := do
  pure { name := NameTransformer.fieldName cfg.naming f.name
         type := ← mapType cfg (some f.type)
         raw := some f }

/-- `TypeMapper.map_param`. -/
def mapParam (cfg : MappingConfig) (p : IRParam) : Except String MappedParam := do
  let mapped_type ← mapType cfg (some p.type)
  pure { name := NameTransformer.paramName cfg.naming p.name
         type := mapped_type
         api_type := ← apiType cfg (some mapped_type)
         call_args := [NameTransformer.paramName cfg.naming p.name]
         nullable := p.nullable
         direction := p.direction
         raw := some p }

/-- `TypeMapper.map_struct`. -/
def mapStruct (cfg : MappingConfig) (s : IRStruct) : Except String MappedStruct := do
  pure { kind := "struct"
         name := NameTransformer.typeName cfg.naming s.name
         fields := ← mapE (mapField cfg) s.fields
         qualified_name := s.qualified_name
         raw := some s }

/-- `TypeMapper.map_enum` (no type mapping, hence no exceptions). -/
def mapEnum (cfg : MappingConfig) (e : IREnum) : MappedEnum :=
  { kind := "enum"
    name := NameTransformer.enumName cfg.naming e.name
    values := e.values.map (fun v =>
      { name := NameTransformer.enumValueName cfg.naming v.name, value := v.value })
    scopedFlag := e.scopedFlag
    qualified_name := e.qualified_name
    raw := some e }

/-- `TypeMapper.map_alias`. -/
def mapAlias (cfg : MappingConfig) (a : IRAlias) : Except String MappedAlias := do
  pure { kind := "alias"
         name := NameTransformer.aliasName cfg.naming a.name
         target := some (← mapType cfg a.target)
         raw := some a }

/-- `TypeMapper.map_function`. -/
def mapFunction (cfg : MappingConfig) (f : IRFunction) : Except String MappedFunction := do
  let return_type ← mapType cfg f.return_type
  let api_return_type ← apiType cfg (some return_type)
  let call_symbol := symbolForFunction cfg f
  let params0 ← mapE (mapParam cfg) f.params
  let params := params0.map (fun p => { p with call_args := paramCallArgs cfg p call_symbol })
  let call_args := (params.map (fun p => p.call_args)).flatten
  let return_bridge := returnBridge cfg api_return_type (some return_type)
  let string_free_symbol :=
    if return_bridge = "string" then stringFreeSymbol cfg call_symbol else ""
  let api_name := NameTransformer.functionName cfg.naming f.name
  pure { kind := "function"
         name := api_name
         api_name := api_name
         return_type := some return_type
         api_return_type := api_return_type
         return_bridge := return_bridge
         params := params
         call_symbol := call_symbol
         call_args := call_args
         string_free_symbol := string_free_symbol
         callconv := f.callconv
         variadic := f.variadic
         qualified_name := f.qualified_name
         raw := some f }

/-- `TypeMapper.map_method`.  (`return_type is not None` in the getter test
is always true, since `map_type` always returns a `MappedType`.) -/
def mapMethod (cfg : MappingConfig) (m : IRMethod) (c : IRClass) :
    Except String MappedMethod := do
  let return_type ← mapType cfg (some m.return_type)
  let api_return_type ← apiType cfg (some return_type)
  let call_symbol := symbolForMethod cfg c m
  let params0 ← mapE (mapParam cfg) m.params
  let params := params0.map (fun p => { p with call_args := paramCallArgs cfg p call_symbol })
  let call_args := (params.map (fun p => p.call_args)).flatten
  let raw_name := m.name
  let skip := raw_name = c.name || pyStartsWith raw_name "~" || raw_name = "GetInstance"
  let is_getter := pyStartsWith raw_name "Get" && params.length = 0 &&
    !(return_type.kind = "void")
  let is_bool_getter := pyStartsWith raw_name "Is" && params.length = 0 &&
    pyLower api_return_type = "bool"
  let is_property := is_getter || is_bool_getter
  let property_name :=
    if is_getter then getterPropertyName raw_name
    else if is_bool_getter then NameTransformer.methodName cfg.naming raw_name
    else ""
  let return_bridge := returnBridge cfg api_return_type (some return_type)
  let string_free_symbol :=
    if return_bridge = "string" then stringFreeSymbol cfg call_symbol else ""
  let api_name := NameTransformer.methodName cfg.naming raw_name
  pure { name := api_name
         raw_name := raw_name
         api_name := api_name
         return_type := some return_type
         api_return_type := api_return_type
         return_bridge := return_bridge
         params := params
         call_symbol := call_symbol
         call_args := call_args
         string_free_symbol := string_free_symbol
         skip := skip
         is_property := is_property
         property_name := property_name
         method_kind := m.kind
         static := m.static
         needs_instance_handle := !m.static
         const := m.const
         access := m.access
         variadic := m.variadic
         raw := some m }

/-- `TypeMapper.map_class`. -/
def mapClass (cfg : MappingConfig) (c : IRClass) : Except String MappedClass := do
  let class_name := NameTransformer.className cfg.naming c.name
  let is_singleton := cfg.options.singleton_classes.contains class_name
  pure { kind := "class"
         name := class_name
         fields := ← mapE (mapField cfg) c.fields
         methods := ← mapE (fun m => mapMethod cfg m c) c.methods
         bases := c.bases
         handle_alias := "native_" ++ to_snake_case c.name ++ "_t"
         is_singleton := is_singleton
         singleton_symbol := if is_singleton then symbolForSingleton cfg c else ""
         qualified_name := c.qualified_name
         raw := some c }

/-- `TypeMapper.map_constant`. -/
def mapConstant (cfg : MappingConfig) (k : IRConstant) : Except String MappedConstant := do
  pure { kind := "constant"
         name := NameTransformer.constantName cfg.naming k.name
         type := some (← mapType cfg k.type)
         value := k.value
         raw := some k }

/-- `TypeMapper.map_item` (the `raise ValueError` for an unknown item type is
unreachable: the `IRItem` union is closed). -/
def mapItem (cfg : MappingConfig) : IRItem → Except String MappedItem
  | .struct s => do pure (.struct (← mapStruct cfg s))
  | .enum e => pure (.enum (mapEnum cfg e))
  | .alias a => do pure (.alias (← mapAlias cfg a))
  | .func f => do pure (.func (← mapFunction cfg f))
  | .cls c => do pure (.cls (← mapClass cfg c))
  | .const k => do pure (.const (← mapConstant cfg k))

/-- `TypeMapper.map_file`. -/
def mapFile (cfg : MappingConfig) (f : IRFile) : Except String MappedFile := do
  pure { items := ← mapE (mapItem cfg) f.items
         raw := some f }

/-! ## `codegen/context.py`: `build_context`

The returned Python dict additionally passes `module`, `mapping`, `namer`
and `raw` through unchanged (they are the function's own arguments); the
structure below holds the fields `build_context` computes. -/

structure BuildContext where
  file_paths : List String := []
  files : List (String × MappedFile) := []
  items : List MappedItem := []
  types : List MappedStruct := []
  enums : List MappedEnum := []
  functions : List MappedFunction := []
  classes : List MappedClass := []
  constants : List MappedConstant := []
  aliases : List MappedAlias := []
  deriving Repr, DecidableEq

/-- The accumulator of `build_context`'s concatenation loop. -/
structure CtxAcc where
  all_items : List MappedItem := []
  types : List MappedStruct := []
  enums : List MappedEnum := []
  functions : List MappedFunction := []
  classes : List MappedClass := []
  constants : List MappedConstant := []
  aliases : List MappedAlias := []
  deriving Repr, DecidableEq

/-- One iteration of the loop body (the six `extend` calls plus
`all_items.extend`). -/
def CtxAcc.extend (acc : CtxAcc) (mf : MappedFile) : CtxAcc :=
  { all_items := acc.all_items ++ mf.items
    types := acc.types ++ mf.types
    enums := acc.enums ++ mf.enums
    functions := acc.functions ++ mf.functions
    classes := acc.classes ++ mf.classes
    constants := acc.constants ++ mf.constants
    aliases := acc.aliases ++ mf.aliases }

/-- The `for path in sorted_paths` concatenation loop of `build_context`
(each step reads `mapped_files[path]`, a dict subscript). -/
def ctxLoop (mfs : List (String × MappedFile)) : CtxAcc → List String → Except String CtxAcc
  | acc, [] => pure acc
  | acc, p :: ps => do
    let mf ← dictGet mfs p
    ctxLoop mfs (acc.extend mf) ps

/-- `context.build_context`. -/
def build_context (module : IRModule) (mapping : MappingConfig) :
    Except String BuildContext := do
  let sorted_paths := pySortedStr (module.files.map Prod.fst)
  let mapped_files ← mapE (fun path => do
      let f ← dictGet module.files path
      pure (path, ← mapFile mapping f)) sorted_paths
  let acc ← ctxLoop mapped_files {} sorted_paths
  pure { file_paths := sorted_paths
         files := mapped_files
         items := acc.all_items
         types := acc.types
         enums := acc.enums
         functions := acc.functions
         classes := acc.classes
         constants := acc.constants
         aliases := acc.aliases }

/-! ## `normalizer.py`: the final deterministic sort -/

/-- The last step of `normalize_translation_unit`:
`for bucket in module.files.values(): bucket.items.sort(key=lambda item: item.name)`.
The clang traversal that fills the buckets is outside this model; the claim
about the returned module holds for every possible pre-sort module. -/
def normalizeSortBuckets (m : IRModule) : IRModule :=
  { files := m.files.map (fun pf =>
      (pf.1, { items := isort (fun a b => strLeB a.name b.name) pf.2.items })) }

/-! ## `codegen/generator.py`: output paths

`pathlib.PurePosixPath` is modelled by its (absolute?, parts) normal form:
parsing splits on `/`, drops empty and `.` components, and records whether
the path string starts with `/`.  (The special `//` root and drive handling
of `pathlib` do not occur for the relative source paths involved.) -/

structure PPath where
  absolute : Bool := false
  parts : List String := []
  deriving Repr, DecidableEq

/-- `PurePosixPath(s)`. -/
def parsePPath (s : String) : PPath :=
  { absolute := pyStartsWith s "/"
    parts := ((splitCh '/' s.data).map (fun l => String.mk l)).filter
      (fun c => c ≠ "" && c ≠ ".") }

/-- `path.name`. -/
def PPath.name (p : PPath) : String := p.parts.getLast?.getD ""

/-- The index of the last occurrence of `c` (`str.rfind`), `none` if absent. -/
def rfindCh (c : Char) (l : List Char) : Option Nat :=
  (l.reverse.findIdx? (· == c)).map (fun j => l.length - 1 - j)

/-- `pathlib`'s stem rule on a file name: split at the last dot, provided it
is neither the first nor the last character. -/
def stemOfName (name : String) : String :=
  match rfindCh '.' name.data with
  | some i => if 0 < i ∧ i < name.data.length - 1 then ⟨name.data.take i⟩ else name
  | none => name

/-- `path.stem`. -/
def PPath.stem (p : PPath) : String := stemOfName p.name

/-- `path.parent`. -/
def PPath.parent (p : PPath) : PPath :=
  if p.parts = [] then p else { p with parts := p.parts.dropLast }

/-- `a / b` on `pathlib` paths (an absolute right operand replaces the left). -/
def PPath.join (a b : PPath) : PPath :=
  if b.absolute then b else { absolute := a.absolute, parts := a.parts ++ b.parts }

/-- `generator._compute_output_path`. -/
def compute_output_path (ir_file_path template_name : String) (out_dir : PPath) : PPath :=
  let ir_path := parsePPath ir_file_path
  let template_stem := (parsePPath template_name).stem
  let output_name := ir_path.stem ++ "." ++ template_stem
  (out_dir.join ir_path.parent).join (parsePPath output_name)

/-- Modelled from the spec: the output path is
`<output-root>/<source-file-directory>/<naming-transformed-file-stem>.<template-stem>`
"where the file stem has been transformed by the configured file-name naming
rule (style plus strip/add affixes)".  The generator source computes the
output name from the raw stem and never invokes the file-name naming rule;
this definition follows the spec's words so the two can be compared. -/
def specClaimedOutputPath (naming : NamingConfig) (ir_file_path template_name : String)
    (out_dir : PPath) : PPath :=
  let ir_path := parsePPath ir_file_path
  let template_stem := (parsePPath template_name).stem
  let output_name := NameTransformer.fileName naming ir_path.stem ++ "." ++ template_stem
  (out_dir.join ir_path.parent).join (parsePPath output_name)

/-! ## `ir/serializer.py`

The JSON payload is modelled as a `Json` value tree (floats are outside the
model; `json.dumps`/`json.loads` round-trips these values and preserves
object key order, so the text encoding itself is not modelled). -/

inductive Json where
  | null
  | bool (b : Bool)
  | int (n : Int)
  | str (s : String)
  | arr (xs : List Json)
  | obj (fields : List (String × Json))

/- A structural size of a `Json` tree, used as recursion fuel for
`parse_ir_type` (defined mutually because `Json` nests through lists). -/
mutual

def jsize : Json → Nat
  | .null => 1
  | .bool _ => 1
  | .int _ => 1
  | .str _ => 1
  | .arr xs => 1 + jsizeList xs
  | .obj fs => 1 + jsizeObj fs

def jsizeList : List Json → Nat
  | [] => 0
  | j :: js => jsize j + jsizeList js

def jsizeObj : List (String × Json) → Nat
  | [] => 0
  | kv :: fs => jsize kv.2 + jsizeObj fs

end

/-- `data.get(k, dflt)` on a parsed JSON object. -/
def jget (j : Json) (k : String) (dflt : Json) : Json :=
  match j with
  | .obj fields => dictGetD fields k dflt
  | _ => dflt

/-- Python truthiness of a JSON value. -/
def jTruthy : Json → Bool
  | .null => false
  | .bool b => b
  | .int n => !(n = 0)
  | .str s => !(s = "")
  | .arr xs => !xs.isEmpty
  | .obj fs => !fs.isEmpty

/-- Read a JSON value as a string (serialized modules only ever store
strings in these positions). -/
def jAsStr (j : Json) (dflt : String) : String :=
  match j with | .str s => s | _ => dflt

def jAsStrOpt : Json → Option String
  | .str s => some s
  | _ => none

def jAsInt (j : Json) (dflt : Int) : Int :=
  match j with | .int n => n | _ => dflt

def jAsIntOpt : Json → Option Int
  | .int n => some n
  | _ => none

def jAsBool (j : Json) (dflt : Bool) : Bool :=
  match j with | .bool b => b | _ => dflt

def jAsBoolOpt : Json → Option Bool
  | .bool b => some b
  | _ => none

def jAsStrList : Json → List String
  | .arr xs => xs.map (fun j => jAsStr j "")
  | _ => []

def jAsList : Json → List Json
  | .arr xs => xs
  | _ => []

def jAsPyVal : Json → PyVal
  | .int n => .int n
  | .str s => .str s
  | _ => .int 0

/-- `dataclasses.asdict` on an `Optional[IRType]` (`None` becomes JSON
`null`; an `IRType` becomes an object with its seven fields in declaration
order). -/
def serializeOptStr : Option String → Json
  | none => .null
  | some s => .str s

def serializeOptInt : Option Int → Json
  | none => .null
  | some n => .int n

def serializeOptBool : Option Bool → Json
  | none => .null
  | some b => .bool b

def serializeType : IRType → Json
  | .mk kind name toTy element length qualifiers scopedFlag =>
    .obj [("kind", .str kind),
          ("name", serializeOptStr name),
          ("to", match toTy with | some u => serializeType u | none => .null),
          ("element", match element with | some e => serializeType e | none => .null),
          ("length", serializeOptInt length),
          ("qualifiers", .arr (qualifiers.map Json.str)),
          ("scoped", serializeOptBool scopedFlag)]

def serializeTypeOpt : Option IRType → Json
  | none => .null
  | some t => serializeType t

def serializePyVal : PyVal → Json
  | .int n => .int n
  | .str s => .str s

def serializeField (f : IRField) : Json :=
  .obj [("name", .str f.name), ("type", serializeTypeOpt (some f.type))]

def serializeEnumValue (v : IREnumValue) : Json :=
  .obj [("name", .str v.name), ("value", .int v.value)]

def serializeParam (p : IRParam) : Json :=
  .obj [("name", .str p.name),
        ("type", serializeTypeOpt (some p.type)),
        ("nullable", .bool p.nullable),
        ("direction", serializeOptStr p.direction)]

def serializeMethod (m : IRMethod) : Json :=
  .obj [("name", .str m.name),
        ("return_type", serializeTypeOpt (some m.return_type)),
        ("params", .arr (m.params.map serializeParam)),
        ("kind", .str m.kind),
        ("static", .bool m.static),
        ("const", .bool m.const),
        ("access", serializeOptStr m.access),
        ("variadic", .bool m.variadic)]

/-- `serializer._serialize_item` (= `dataclasses.asdict`, which includes the
`kind` discriminator field of every item dataclass). -/
def serialize_item : IRItem → Json
  | .struct s =>
    .obj [("kind", .str "struct"),
          ("name", .str s.name),
          ("fields", .arr (s.fields.map serializeField)),
          ("qualified_name", serializeOptStr s.qualified_name)]
  | .enum e =>
    .obj [("kind", .str "enum"),
          ("name", .str e.name),
          ("values", .arr (e.values.map serializeEnumValue)),
          ("scoped", .bool e.scopedFlag),
          ("qualified_name", serializeOptStr e.qualified_name)]
  | .alias a =>
    .obj [("kind", .str "alias"),
          ("name", .str a.name),
          ("target", serializeTypeOpt a.target)]
  | .func f =>
    .obj [("kind", .str "function"),
          ("name", .str f.name),
          ("return_type", serializeTypeOpt f.return_type),
          ("params", .arr (f.params.map serializeParam)),
          ("callconv", serializeOptStr f.callconv),
          ("variadic", .bool f.variadic),
          ("qualified_name", serializeOptStr f.qualified_name)]
  | .cls c =>
    .obj [("kind", .str "class"),
          ("name", .str c.name),
          ("fields", .arr (c.fields.map serializeField)),
          ("methods", .arr (c.methods.map serializeMethod)),
          ("bases", .arr (c.bases.map Json.str)),
          ("qualified_name", serializeOptStr c.qualified_name)]
  | .const k =>
    .obj [("kind", .str "constant"),
          ("name", .str k.name),
          ("type", serializeTypeOpt k.type),
          ("value", serializePyVal k.value)]

/-- `serializer.dump_ir_json`: the JSON payload written to disk, keyed by
file path, each value the list of serialized items. -/
def dump_ir_json (m : IRModule) : List (String × List Json) :=
  m.files.map (fun pf => (pf.1, pf.2.items.map serialize_item))

/-- `serializer._parse_ir_type`, fuelled (the recursion descends into values
extracted from JSON objects, which is not structural; any fuel at least the
nesting depth gives the function's value, and the public `parse_ir_type`
wrapper passes `jsize` of the argument, which always suffices). -/
def parse_ir_type_f : Nat → Json → IRType
  | _, .null => .mk "void" none none none none [] none
  | 0, _ => .mk "void" none none none none [] none
  | fuel + 1, j =>
    .mk (jAsStr (jget j "kind" (.str "")) "")
        (jAsStrOpt (jget j "name" .null))
        (if jTruthy (jget j "to" .null) then
           some (parse_ir_type_f fuel (jget j "to" .null)) else none)
        (if jTruthy (jget j "element" .null) then
           some (parse_ir_type_f fuel (jget j "element" .null)) else none)
        (jAsIntOpt (jget j "length" .null))
        (jAsStrList (jget j "qualifiers" (.arr [])))
        (jAsBoolOpt (jget j "scoped" .null))

def parse_ir_type (j : Json) : IRType := parse_ir_type_f (jsize j) j

def parse_ir_field (j : Json) : IRField :=
  { name := jAsStr (jget j "name" (.str "")) ""
    type := parse_ir_type (jget j "type" (.obj [])) }

def parse_ir_enum_value (j : Json) : IREnumValue :=
  { name := jAsStr (jget j "name" (.str "")) ""
    value := jAsInt (jget j "value" (.int 0)) 0 }

def parse_ir_param (j : Json) : IRParam :=
  { name := jAsStr (jget j "name" (.str "")) ""
    type := parse_ir_type (jget j "type" (.obj []))
    nullable := jAsBool (jget j "nullable" (.bool false)) false
    direction := jAsStrOpt (jget j "direction" .null) }

def parse_ir_method (j : Json) : IRMethod :=
  { name := jAsStr (jget j "name" (.str "")) ""
    return_type := parse_ir_type (jget j "return_type" (.obj []))
    params := (jAsList (jget j "params" (.arr []))).map parse_ir_param
    kind := jAsStr (jget j "kind" (.str "method")) "method"
    static := jAsBool (jget j "static" (.bool false)) false
    const := jAsBool (jget j "const" (.bool false)) false
    access := jAsStrOpt (jget j "access" .null)
    variadic := jAsBool (jget j "variadic" (.bool false)) false }

def parse_ir_struct (j : Json) : IRStruct :=
  { name := jAsStr (jget j "name" (.str "")) ""
    fields := (jAsList (jget j "fields" (.arr []))).map parse_ir_field
    qualified_name := jAsStrOpt (jget j "qualified_name" .null) }

def parse_ir_enum (j : Json) : IREnum :=
  { name := jAsStr (jget j "name" (.str "")) ""
    values := (jAsList (jget j "values" (.arr []))).map parse_ir_enum_value
    scopedFlag := jAsBool (jget j "scoped" (.bool false)) false
    qualified_name := jAsStrOpt (jget j "qualified_name" .null) }

/-- `serializer._parse_ir_alias`: note that `target` is always constructed
from `_parse_ir_type`, so it is never `None` after parsing. -/
def parse_ir_alias (j : Json) : IRAlias :=
  { name := jAsStr (jget j "name" (.str "")) ""
    target := some (parse_ir_type (jget j "target" (.obj []))) }

/-- `serializer._parse_ir_function`: `return_type` is always constructed
from `_parse_ir_type`, so it is never `None` after parsing. -/
def parse_ir_function (j : Json) : IRFunction :=
  { name := jAsStr (jget j "name" (.str "")) ""
    return_type := some (parse_ir_type (jget j "return_type" (.obj [])))
    params := (jAsList (jget j "params" (.arr []))).map parse_ir_param
    callconv := jAsStrOpt (jget j "callconv" .null)
    variadic := jAsBool (jget j "variadic" (.bool false)) false
    qualified_name := jAsStrOpt (jget j "qualified_name" .null) }

def parse_ir_class (j : Json) : IRClass :=
  { name := jAsStr (jget j "name" (.str "")) ""
    fields := (jAsList (jget j "fields" (.arr []))).map parse_ir_field
    methods := (jAsList (jget j "methods" (.arr []))).map parse_ir_method
    bases := jAsStrList (jget j "bases" (.arr []))
    qualified_name := jAsStrOpt (jget j "qualified_name" .null) }

def parse_ir_constant (j : Json) : IRConstant :=
  { name := jAsStr (jget j "name" (.str "")) ""
    type := some (parse_ir_type (jget j "type" (.obj [])))
    value := jAsPyVal (jget j "value" (.int 0)) }

/-- `serializer._parse_ir_item` (raises `ValueError` on an unknown `kind`). -/
def parse_ir_item (j : Json) : Except String IRItem :=
  let kind := jAsStr (jget j "kind" (.str "")) ""
  if kind = "struct" then pure (.struct (parse_ir_struct j))
  else if kind = "enum" then pure (.enum (parse_ir_enum j))
  else if kind = "alias" then pure (.alias (parse_ir_alias j))
  else if kind = "function" then pure (.func (parse_ir_function j))
  else if kind = "class" then pure (.cls (parse_ir_class j))
  else if kind = "constant" then pure (.const (parse_ir_constant j))
  else .error ("Unknown IR item kind: " ++ kind)

/-- `serializer._parse_ir_file`. -/
def parse_ir_file (items_data : List Json) : Except String IRFile := do
  pure { items := ← mapE parse_ir_item items_data }

/-- `serializer.load_ir_json` on the parsed payload. -/
def load_ir_json (payload : List (String × List Json)) : Except String IRModule := do
  pure { files := ← mapE (fun pf => do pure (pf.1, ← parse_ir_file pf.2)) payload }

/-! ## Shared lemmas: the mapper never raises

`dictGet` (the Python dict subscript) is the only failure source in the
`TypeMapper`; every subscript in the source is guarded by an `in` test, and
the lemmas below verify each guard. -/

theorem exceptBind_ok {α β : Type} {x : Except String α} {f : α → Except String β} {a : α}
    (h : x = .ok a) : (x >>= f) = f a := by subst h; rfl

theorem dictGet_ok_of_mem {α : Type} (d : List (String × α)) (k : String)
    (h : dictMem d k = true) : ∃ v, dictGet d k = .ok v := by
  unfold dictMem at h
  unfold dictGet
  cases hl : d.lookup k with
  | none => rw [hl] at h; simp at h
  | some v => exact ⟨v, rfl⟩

theorem lookupType_ok (cfg : MappingConfig) (n : String) (c : Bool) :
    ∃ s, lookupType cfg n c = .ok s := by
  unfold lookupType
  split
  · next h => exact dictGet_ok_of_mem _ _ (by exact (Bool.and_eq_true _ _ ▸ h).2)
  · split
    · next h =>
      obtain ⟨v, hv⟩ := dictGet_ok_of_mem cfg.types n h
      exact ⟨_, by rw [exceptBind_ok hv]; rfl⟩
    · split
      · exact ⟨_, rfl⟩
      · split
        · exact ⟨_, rfl⟩
        · exact ⟨_, rfl⟩

theorem ptrMappedStr_ok (cfg : MappingConfig) (c : Bool) (pk : Option String) (s : String) :
    ∃ v, ptrMappedStr cfg c pk s = .ok v := by
  unfold ptrMappedStr
  dsimp only
  split
  · split
    · next h => exact dictGet_ok_of_mem _ _ h
    · split
      · next h => exact dictGet_ok_of_mem _ _ h
      · split
        · exact ⟨_, rfl⟩
        · split
          · exact ⟨_, rfl⟩
          · exact ⟨_, rfl⟩
  · split
    · next h => exact dictGet_ok_of_mem _ _ (by exact (Bool.and_eq_true _ _ ▸ h).2)
    · split
      · exact ⟨_, rfl⟩
      · exact ⟨_, rfl⟩

theorem mapTypePointerRest_ok (cfg : MappingConfig) (t : IRType) (c : Bool)
    (toTy : Option IRType) (im : Option MappedType) :
    ∃ m, mapTypePointerRest cfg t c toTy im = .ok m ∧ m.kind = "pointer" ∧ m.raw = t := by
  obtain ⟨v, hv⟩ := ptrMappedStr_ok cfg c (ptrKeyOf toTy) (innerStrOf im)
  refine ⟨.mk v t "pointer" none true false false c im none none, ?_, rfl, rfl⟩
  unfold mapTypePointerRest; rw [exceptBind_ok hv]; rfl

theorem mapTypePrimitive_ok (cfg : MappingConfig) (t : IRType) (n : Option String) (c : Bool) :
    ∃ m, mapTypePrimitive cfg t n c = .ok m ∧ m.kind = "primitive" ∧ m.raw = t := by
  obtain ⟨v, hv⟩ := lookupType_ok cfg (pyOrStr n "int") c
  refine ⟨.mk v t "primitive" (some (pyOrStr n "int")) false false false c none none none,
    ?_, rfl, rfl⟩
  unfold mapTypePrimitive; rw [exceptBind_ok hv]; rfl

theorem mapTypeNamed_ok (cfg : MappingConfig) (t : IRType) (k : String) (n : Option String)
    (c : Bool) : ∃ m, mapTypeNamed cfg t k n c = .ok m ∧ m.kind = k ∧ m.raw = t := by
  obtain ⟨v, hv⟩ := lookupType_ok cfg (pyOrStr n "unknown") c
  refine ⟨.mk v t k (some (pyOrStr n "unknown")) false false false c none none none,
    ?_, rfl, rfl⟩
  unfold mapTypeNamed; rw [exceptBind_ok hv]; rfl

theorem mapTypeFallback_ok (cfg : MappingConfig) (t : IRType) (k : String) (n : Option String)
    (c : Bool) : ∃ m, mapTypeFallback cfg t k n c = .ok m ∧ m.kind = k ∧ m.raw = t := by
  obtain ⟨v, hv⟩ := lookupType_ok cfg (pyOrStr n k) c
  refine ⟨.mk v t k n false false false c none none none, ?_, rfl, rfl⟩
  unfold mapTypeFallback; rw [exceptBind_ok hv]; rfl

theorem mapTypeCore_eq_nn (cfg : MappingConfig) (kind : String) (name : Option String)
    (length : Option Int) (q : List String) (s : Option Bool) :
    mapTypeCore cfg (.mk kind name none none length q s) =
      (let t : IRType := .mk kind name none none length q s
       let c := q.contains "const"
       if kind = "void" then
         pure (.mk (dictGetD cfg.types "void" "void") t kind none false false true c
           none none none)
       else if kind = "pointer" then mapTypePointerRest cfg t c none none
       else if kind = "array" then pure (mapTypeArrayRest cfg t c none length)
       else if kind = "reference" then pure (mapTypeRefRest cfg t c none)
       else if kind = "primitive" then mapTypePrimitive cfg t name c
       else if namedKinds.contains kind then mapTypeNamed cfg t kind name c
       else if kind = "function_pointer" then
         pure (.mk (dictGetD cfg.types "function_pointer" "FunctionPointer") t kind none
           false false false c none none none)
       else mapTypeFallback cfg t kind name c) := rfl

theorem mapTypeCore_eq_sn (cfg : MappingConfig) (kind : String) (name : Option String)
    (u : IRType) (length : Option Int) (q : List String) (s : Option Bool) :
    mapTypeCore cfg (.mk kind name (some u) none length q s) =
      (let t : IRType := .mk kind name (some u) none length q s
       let c := q.contains "const"
       if kind = "void" then
         pure (.mk (dictGetD cfg.types "void" "void") t kind none false false true c
           none none none)
       else if kind = "pointer" then
         mapTypeCore cfg u >>= fun r => mapTypePointerRest cfg t c (some u) (some r)
       else if kind = "array" then pure (mapTypeArrayRest cfg t c none length)
       else if kind = "reference" then
         mapTypeCore cfg u >>= fun r => pure (mapTypeRefRest cfg t c (some r))
       else if kind = "primitive" then mapTypePrimitive cfg t name c
       else if namedKinds.contains kind then mapTypeNamed cfg t kind name c
       else if kind = "function_pointer" then
         pure (.mk (dictGetD cfg.types "function_pointer" "FunctionPointer") t kind none
           false false false c none none none)
       else mapTypeFallback cfg t kind name c) := rfl

theorem mapTypeCore_eq_ns (cfg : MappingConfig) (kind : String) (name : Option String)
    (e : IRType) (length : Option Int) (q : List String) (s : Option Bool) :
    mapTypeCore cfg (.mk kind name none (some e) length q s) =
      (let t : IRType := .mk kind name none (some e) length q s
       let c := q.contains "const"
       if kind = "void" then
         pure (.mk (dictGetD cfg.types "void" "void") t kind none false false true c
           none none none)
       else if kind = "pointer" then mapTypePointerRest cfg t c none none
       else if kind = "array" then
         mapTypeCore cfg e >>= fun r => pure (mapTypeArrayRest cfg t c (some r) length)
       else if kind = "reference" then pure (mapTypeRefRest cfg t c none)
       else if kind = "primitive" then mapTypePrimitive cfg t name c
       else if namedKinds.contains kind then mapTypeNamed cfg t kind name c
       else if kind = "function_pointer" then
         pure (.mk (dictGetD cfg.types "function_pointer" "FunctionPointer") t kind none
           false false false c none none none)
       else mapTypeFallback cfg t kind name c) := rfl

theorem mapTypeCore_eq_ss (cfg : MappingConfig) (kind : String) (name : Option String)
    (u e : IRType) (length : Option Int) (q : List String) (s : Option Bool) :
    mapTypeCore cfg (.mk kind name (some u) (some e) length q s) =
      (let t : IRType := .mk kind name (some u) (some e) length q s
       let c := q.contains "const"
       if kind = "void" then
         pure (.mk (dictGetD cfg.types "void" "void") t kind none false false true c
           none none none)
       else if kind = "pointer" then
         mapTypeCore cfg u >>= fun r => mapTypePointerRest cfg t c (some u) (some r)
       else if kind = "array" then
         mapTypeCore cfg e >>= fun r => pure (mapTypeArrayRest cfg t c (some r) length)
       else if kind = "reference" then
         mapTypeCore cfg u >>= fun r => pure (mapTypeRefRest cfg t c (some r))
       else if kind = "primitive" then mapTypePrimitive cfg t name c
       else if namedKinds.contains kind then mapTypeNamed cfg t kind name c
       else if kind = "function_pointer" then
         pure (.mk (dictGetD cfg.types "function_pointer" "FunctionPointer") t kind none
           false false false c none none none)
       else mapTypeFallback cfg t kind name c) := rfl

theorem mapTypeCore_ok (cfg : MappingConfig) : (t : IRType) →
    ∃ m, mapTypeCore cfg t = .ok m ∧ m.kind = t.kind ∧ m.raw = t
  | .mk kind name toTy element length q s => by
    cases toTy with
    | none =>
      cases element with
      | none =>
        rw [mapTypeCore_eq_nn]
        dsimp only
        split
        · next h => exact ⟨_, rfl, by simp [IRType.kind, MappedType.kind, h], rfl⟩
        · split
          · next h =>
            obtain ⟨m, hm, hk, hr⟩ := mapTypePointerRest_ok cfg _ (q.contains "const") none none
            exact ⟨m, hm, by simp only [IRType.kind]; rw [h]; exact hk, hr⟩
          · split
            · next h =>
              exact ⟨_, rfl, by simp [IRType.kind, MappedType.kind, mapTypeArrayRest, h], rfl⟩
            · split
              · next h =>
                exact ⟨_, rfl, by simp [IRType.kind, MappedType.kind, mapTypeRefRest, h], rfl⟩
              · split
                · next h =>
                  obtain ⟨m, hm, hk, hr⟩ := mapTypePrimitive_ok cfg _ name (q.contains "const")
                  exact ⟨m, hm, by simp only [IRType.kind]; rw [h]; exact hk, hr⟩
                · split
                  · obtain ⟨m, hm, hk, hr⟩ := mapTypeNamed_ok cfg _ kind name (q.contains "const")
                    exact ⟨m, hm, by simp only [IRType.kind]; exact hk, hr⟩
                  · split
                    · next h =>
                      exact ⟨_, rfl, by simp [IRType.kind, MappedType.kind, h], rfl⟩
                    · obtain ⟨m, hm, hk, hr⟩ :=
                        mapTypeFallback_ok cfg _ kind name (q.contains "const")
                      exact ⟨m, hm, by simp only [IRType.kind]; exact hk, hr⟩
      | some e =>
        rw [mapTypeCore_eq_ns]
        dsimp only
        split
        · next h => exact ⟨_, rfl, by simp [IRType.kind, MappedType.kind, h], rfl⟩
        · split
          · next h =>
            obtain ⟨m, hm, hk, hr⟩ := mapTypePointerRest_ok cfg _ (q.contains "const") none none
            exact ⟨m, hm, by simp only [IRType.kind]; rw [h]; exact hk, hr⟩
          · split
            · next h =>
              obtain ⟨me, hme, _, _⟩ := mapTypeCore_ok cfg e
              refine ⟨_, by rw [exceptBind_ok hme]; rfl, ?_, ?_⟩
              · simp [IRType.kind, MappedType.kind, mapTypeArrayRest, h]
              · simp [MappedType.raw, mapTypeArrayRest]
            · split
              · next h =>
                exact ⟨_, rfl, by simp [IRType.kind, MappedType.kind, mapTypeRefRest, h], rfl⟩
              · split
                · next h =>
                  obtain ⟨m, hm, hk, hr⟩ := mapTypePrimitive_ok cfg _ name (q.contains "const")
                  exact ⟨m, hm, by simp only [IRType.kind]; rw [h]; exact hk, hr⟩
                · split
                  · obtain ⟨m, hm, hk, hr⟩ := mapTypeNamed_ok cfg _ kind name (q.contains "const")
                    exact ⟨m, hm, by simp only [IRType.kind]; exact hk, hr⟩
                  · split
                    · next h =>
                      exact ⟨_, rfl, by simp [IRType.kind, MappedType.kind, h], rfl⟩
                    · obtain ⟨m, hm, hk, hr⟩ :=
                        mapTypeFallback_ok cfg _ kind name (q.contains "const")
                      exact ⟨m, hm, by simp only [IRType.kind]; exact hk, hr⟩
    | some u =>
      cases element with
      | none =>
        rw [mapTypeCore_eq_sn]
        dsimp only
        split
        · next h => exact ⟨_, rfl, by simp [IRType.kind, MappedType.kind, h], rfl⟩
        · split
          · next h =>
            obtain ⟨mu, hmu, _, _⟩ := mapTypeCore_ok cfg u
            obtain ⟨m, hm, hk, hr⟩ :=
              mapTypePointerRest_ok cfg _ (q.contains "const") (some u) (some mu)
            exact ⟨m, by rw [exceptBind_ok hmu]; exact hm,
              by simp only [IRType.kind]; rw [h]; exact hk, hr⟩
          · split
            · next h =>
              exact ⟨_, rfl, by simp [IRType.kind, MappedType.kind, mapTypeArrayRest, h], rfl⟩
            · split
              · next h =>
                obtain ⟨mu, hmu, _, _⟩ := mapTypeCore_ok cfg u
                refine ⟨_, by rw [exceptBind_ok hmu]; rfl, ?_, ?_⟩
                · simp [IRType.kind, MappedType.kind, mapTypeRefRest, h]
                · simp [MappedType.raw, mapTypeRefRest]
              · split
                · next h =>
                  obtain ⟨m, hm, hk, hr⟩ := mapTypePrimitive_ok cfg _ name (q.contains "const")
                  exact ⟨m, hm, by simp only [IRType.kind]; rw [h]; exact hk, hr⟩
                · split
                  · obtain ⟨m, hm, hk, hr⟩ := mapTypeNamed_ok cfg _ kind name (q.contains "const")
                    exact ⟨m, hm, by simp only [IRType.kind]; exact hk, hr⟩
                  · split
                    · next h =>
                      exact ⟨_, rfl, by simp [IRType.kind, MappedType.kind, h], rfl⟩
                    · obtain ⟨m, hm, hk, hr⟩ :=
                        mapTypeFallback_ok cfg _ kind name (q.contains "const")
                      exact ⟨m, hm, by simp only [IRType.kind]; exact hk, hr⟩
      | some e =>
        rw [mapTypeCore_eq_ss]
        dsimp only
        split
        · next h => exact ⟨_, rfl, by simp [IRType.kind, MappedType.kind, h], rfl⟩
        · split
          · next h =>
            obtain ⟨mu, hmu, _, _⟩ := mapTypeCore_ok cfg u
            obtain ⟨m, hm, hk, hr⟩ :=
              mapTypePointerRest_ok cfg _ (q.contains "const") (some u) (some mu)
            exact ⟨m, by rw [exceptBind_ok hmu]; exact hm,
              by simp only [IRType.kind]; rw [h]; exact hk, hr⟩
          · split
            · next h =>
              obtain ⟨me, hme, _, _⟩ := mapTypeCore_ok cfg e
              refine ⟨_, by rw [exceptBind_ok hme]; rfl, ?_, ?_⟩
              · simp [IRType.kind, MappedType.kind, mapTypeArrayRest, h]
              · simp [MappedType.raw, mapTypeArrayRest]
            · split
              · next h =>
                obtain ⟨mu, hmu, _, _⟩ := mapTypeCore_ok cfg u
                refine ⟨_, by rw [exceptBind_ok hmu]; rfl, ?_, ?_⟩
                · simp [IRType.kind, MappedType.kind, mapTypeRefRest, h]
                · simp [MappedType.raw, mapTypeRefRest]
              · split
                · next h =>
                  obtain ⟨m, hm, hk, hr⟩ := mapTypePrimitive_ok cfg _ name (q.contains "const")
                  exact ⟨m, hm, by simp only [IRType.kind]; rw [h]; exact hk, hr⟩
                · split
                  · obtain ⟨m, hm, hk, hr⟩ := mapTypeNamed_ok cfg _ kind name (q.contains "const")
                    exact ⟨m, hm, by simp only [IRType.kind]; exact hk, hr⟩
                  · split
                    · next h =>
                      exact ⟨_, rfl, by simp [IRType.kind, MappedType.kind, h], rfl⟩
                    · obtain ⟨m, hm, hk, hr⟩ :=
                        mapTypeFallback_ok cfg _ kind name (q.contains "const")
                      exact ⟨m, hm, by simp only [IRType.kind]; exact hk, hr⟩

theorem mapType_ok (cfg : MappingConfig) (t : Option IRType) :
    ∃ m, mapType cfg t = .ok m := by
  cases t with
  | none => exact ⟨_, rfl⟩
  | some t => obtain ⟨m, hm, _, _⟩ := mapTypeCore_ok cfg t; exact ⟨m, hm⟩

theorem mapType_some_kind (cfg : MappingConfig) (t : IRType) :
    ∃ m, mapType cfg (some t) = .ok m ∧ m.kind = t.kind ∧ m.raw = t :=
  mapTypeCore_ok cfg t

theorem apiType_ok (cfg : MappingConfig) (mt : Option MappedType) :
    ∃ s, apiType cfg mt = .ok s := by
  cases mt with
  | none => exact ⟨_, rfl⟩
  | some mt =>
    rw [show apiType cfg (some mt) =
      (if dictMem cfg.options.api_type_exact mt.mapped then
        dictGet cfg.options.api_type_exact mt.mapped
      else match cfg.options.api_type_contains.find?
          (fun pr => containsSeq pr.1.data mt.mapped.data) with
        | some pr => pure pr.2
        | none => pure mt.mapped) from rfl]
    split
    · next h => exact dictGet_ok_of_mem _ _ h
    · split
      · exact ⟨_, rfl⟩
      · exact ⟨_, rfl⟩

theorem mapE_ok {α β : Type} (f : α → Except String β) (l : List α)
    (h : ∀ a ∈ l, ∃ b, f a = .ok b) : ∃ bs, mapE f l = .ok bs := by
  induction l with
  | nil => exact ⟨[], rfl⟩
  | cons a as ih =>
    obtain ⟨b, hb⟩ := h a (by simp)
    obtain ⟨bs, hbs⟩ := ih (fun x hx => h x (by simp [hx]))
    exact ⟨b :: bs, by unfold mapE; rw [exceptBind_ok hb, exceptBind_ok hbs]; rfl⟩

theorem mapField_ok (cfg : MappingConfig) (f : IRField) :
    ∃ mf, mapField cfg f = .ok mf := by
  obtain ⟨mt, hmt⟩ := mapType_ok cfg (some f.type)
  exact ⟨_, by unfold mapField; rw [exceptBind_ok hmt]; rfl⟩

theorem mapParam_ok (cfg : MappingConfig) (p : IRParam) :
    ∃ mp, mapParam cfg p = .ok mp := by
  obtain ⟨mt, hmt⟩ := mapType_ok cfg (some p.type)
  obtain ⟨s, hs⟩ := apiType_ok cfg (some mt)
  exact ⟨_, by unfold mapParam; rw [exceptBind_ok hmt, exceptBind_ok hs]; rfl⟩

theorem mapStruct_ok (cfg : MappingConfig) (s : IRStruct) :
    ∃ ms, mapStruct cfg s = .ok ms := by
  obtain ⟨fs, hfs⟩ := mapE_ok (mapField cfg) s.fields (fun a _ => mapField_ok cfg a)
  exact ⟨_, by unfold mapStruct; rw [exceptBind_ok hfs]; rfl⟩

theorem mapAlias_ok (cfg : MappingConfig) (a : IRAlias) :
    ∃ ma, mapAlias cfg a = .ok ma := by
  obtain ⟨mt, hmt⟩ := mapType_ok cfg a.target
  exact ⟨_, by unfold mapAlias; rw [exceptBind_ok hmt]; rfl⟩

theorem mapFunction_ok (cfg : MappingConfig) (f : IRFunction) :
    ∃ mf, mapFunction cfg f = .ok mf := by
  obtain ⟨rt, hrt⟩ := mapType_ok cfg f.return_type
  obtain ⟨art, hart⟩ := apiType_ok cfg (some rt)
  obtain ⟨ps, hps⟩ := mapE_ok (mapParam cfg) f.params (fun a _ => mapParam_ok cfg a)
  exact ⟨_, by unfold mapFunction; rw [exceptBind_ok hrt, exceptBind_ok hart,
    exceptBind_ok hps]; rfl⟩

theorem mapMethod_ok (cfg : MappingConfig) (m : IRMethod) (c : IRClass) :
    ∃ mm, mapMethod cfg m c = .ok mm := by
  obtain ⟨rt, hrt⟩ := mapType_ok cfg (some m.return_type)
  obtain ⟨art, hart⟩ := apiType_ok cfg (some rt)
  obtain ⟨ps, hps⟩ := mapE_ok (mapParam cfg) m.params (fun a _ => mapParam_ok cfg a)
  exact ⟨_, by unfold mapMethod; rw [exceptBind_ok hrt, exceptBind_ok hart,
    exceptBind_ok hps]; rfl⟩

theorem mapConstant_ok (cfg : MappingConfig) (k : IRConstant) :
    ∃ mk, mapConstant cfg k = .ok mk := by
  obtain ⟨mt, hmt⟩ := mapType_ok cfg k.type
  exact ⟨_, by unfold mapConstant; rw [exceptBind_ok hmt]; rfl⟩

theorem mapClass_ok (cfg : MappingConfig) (c : IRClass) :
    ∃ mc, mapClass cfg c = .ok mc := by
  obtain ⟨fs, hfs⟩ := mapE_ok (mapField cfg) c.fields (fun a _ => mapField_ok cfg a)
  obtain ⟨ms, hms⟩ := mapE_ok (fun m => mapMethod cfg m c) c.methods
    (fun a _ => mapMethod_ok cfg a c)
  exact ⟨_, by unfold mapClass; rw [exceptBind_ok hfs, exceptBind_ok hms]; rfl⟩

theorem mapItem_ok (cfg : MappingConfig) (i : IRItem) :
    ∃ mi, mapItem cfg i = .ok mi := by
  rcases i with s | e | a | f | c | k
  · obtain ⟨v, hv⟩ := mapStruct_ok cfg s
    exact ⟨_, by rw [show mapItem cfg (.struct s) =
      mapStruct cfg s >>= fun v => pure (.struct v) from rfl, exceptBind_ok hv]; rfl⟩
  · exact ⟨_, rfl⟩
  · obtain ⟨v, hv⟩ := mapAlias_ok cfg a
    exact ⟨_, by rw [show mapItem cfg (.alias a) =
      mapAlias cfg a >>= fun v => pure (.alias v) from rfl, exceptBind_ok hv]; rfl⟩
  · obtain ⟨v, hv⟩ := mapFunction_ok cfg f
    exact ⟨_, by rw [show mapItem cfg (.func f) =
      mapFunction cfg f >>= fun v => pure (.func v) from rfl, exceptBind_ok hv]; rfl⟩
  · obtain ⟨v, hv⟩ := mapClass_ok cfg c
    exact ⟨_, by rw [show mapItem cfg (.cls c) =
      mapClass cfg c >>= fun v => pure (.cls v) from rfl, exceptBind_ok hv]; rfl⟩
  · obtain ⟨v, hv⟩ := mapConstant_ok cfg k
    exact ⟨_, by rw [show mapItem cfg (.const k) =
      mapConstant cfg k >>= fun v => pure (.const v) from rfl, exceptBind_ok hv]; rfl⟩

theorem mapFile_ok (cfg : MappingConfig) (f : IRFile) :
    ∃ mf, mapFile cfg f = .ok mf := by
  obtain ⟨is, his⟩ := mapE_ok (mapItem cfg) f.items (fun a _ => mapItem_ok cfg a)
  exact ⟨_, by unfold mapFile; rw [exceptBind_ok his]; rfl⟩

theorem mapFunction_eq_detail (cfg : MappingConfig) (f : IRFunction) (rt : MappedType)
    (art : String) (ps : List MappedParam)
    (hrt : mapType cfg f.return_type = .ok rt)
    (hart : apiType cfg (some rt) = .ok art)
    (hps : mapE (mapParam cfg) f.params = .ok ps) :
    mapFunction cfg f = .ok (
      let call_symbol := symbolForFunction cfg f
      let params := ps.map (fun p => { p with call_args := paramCallArgs cfg p call_symbol })
      let return_bridge := returnBridge cfg art (some rt)
      let api_name := NameTransformer.functionName cfg.naming f.name
      { kind := "function", name := api_name, api_name := api_name,
        return_type := some rt, api_return_type := art, return_bridge := return_bridge,
        params := params, call_symbol := call_symbol,
        call_args := (params.map (fun p => p.call_args)).flatten,
        string_free_symbol :=
          if return_bridge = "string" then stringFreeSymbol cfg call_symbol else "",
        callconv := f.callconv, variadic := f.variadic,
        qualified_name := f.qualified_name, raw := some f }) := by
  unfold mapFunction
  rw [exceptBind_ok hrt, exceptBind_ok hart, exceptBind_ok hps]
  rfl

theorem mapMethod_eq_detail (cfg : MappingConfig) (m : IRMethod) (c : IRClass)
    (rt : MappedType) (art : String) (ps : List MappedParam)
    (hrt : mapType cfg (some m.return_type) = .ok rt)
    (hart : apiType cfg (some rt) = .ok art)
    (hps : mapE (mapParam cfg) m.params = .ok ps) :
    mapMethod cfg m c = .ok (
      let call_symbol := symbolForMethod cfg c m
      let params := ps.map (fun p => { p with call_args := paramCallArgs cfg p call_symbol })
      let is_getter := pyStartsWith m.name "Get" && params.length = 0 && !(rt.kind = "void")
      let is_bool_getter := pyStartsWith m.name "Is" && params.length = 0 &&
        pyLower art = "bool"
      let return_bridge := returnBridge cfg art (some rt)
      let api_name := NameTransformer.methodName cfg.naming m.name
      { name := api_name, raw_name := m.name, api_name := api_name,
        return_type := some rt, api_return_type := art, return_bridge := return_bridge,
        params := params, call_symbol := call_symbol,
        call_args := (params.map (fun p => p.call_args)).flatten,
        string_free_symbol :=
          if return_bridge = "string" then stringFreeSymbol cfg call_symbol else "",
        skip := m.name = c.name || pyStartsWith m.name "~" || m.name = "GetInstance",
        is_property := is_getter || is_bool_getter,
        property_name :=
          if is_getter then getterPropertyName m.name
          else if is_bool_getter then NameTransformer.methodName cfg.naming m.name
          else "",
        method_kind := m.kind, static := m.static, needs_instance_handle := !m.static,
        const := m.const, access := m.access, variadic := m.variadic,
        raw := some m }) := by
  unfold mapMethod
  rw [exceptBind_ok hrt, exceptBind_ok hart, exceptBind_ok hps]
  rfl

/-! ## Claim theorems -/

/-- A predicate for Claim C3: every node of the IR type tree has one of the
kinds the claim enumerates. -/
def kindsOk : IRType → Bool
  | .mk kind _ toTy element _ _ _ =>
    (kind = "void" || kind = "primitive" || kind = "pointer" || kind = "array" ||
     kind = "reference" || decide (kind ∈ namedKinds)) &&
    (match toTy with | some u => kindsOk u | none => true) &&
    (match element with | some e => kindsOk e | none => true)

/-- Claim C3: for every IR type tree whose nodes have kind `void`,
`primitive`, `pointer`, `array`, `reference` or a named kind
(struct/enum/class/typedef/elaborated), `TypeMapper.map_type` returns a
`MappedType` and never raises, provided `passthrough_unknown` is true or
`default_type` is set.  (In the embedding, a raised exception is an
`Except.error`; the proof checks that every dict subscript in `map_type` and
`_lookup_type` is guarded.) -/
theorem c3_map_type_total (cfg : MappingConfig) (t : IRType)
    (_hkinds : kindsOk t = true)
    (_hpolicy : cfg.passthrough_unknown = true ∨ pyTruthyOptStr cfg.default_type = true) :
    ∃ m, mapType cfg (some t) = .ok m :=
  mapType_ok cfg (some t)

/-- Witness for C3 at a concrete configuration and type tree
(`const char*` under a passthrough configuration). -/
theorem c3_map_type_total_witness :
    (kindsOk (.mk "pointer" none
        (some (.mk "primitive" (some "char") none none none [] none))
        none none ["const"] none) = true) ∧
    (({ } : MappingConfig).passthrough_unknown = true ∨
      pyTruthyOptStr ({ } : MappingConfig).default_type = true) ∧
    ∃ m, mapType { } (some (.mk "pointer" none
        (some (.mk "primitive" (some "char") none none none [] none))
        none none ["const"] none)) = .ok m :=
  ⟨by decide, Or.inl (by decide),
    c3_map_type_total { } _ (by decide) (Or.inl (by decide))⟩

/-- Claim C5 (code bug): with `passthrough_unknown=False` and `default_type`
unset, `_lookup_type` on a name absent from the type table silently returns
the unmapped name instead of raising: on the empty table it returns
`.ok "Foo"` (for both the const-qualified and unqualified paths), never an
error.  The code contradicts its own documentation in `config.py`
("If False and default_type is None, raises an error"). -/
theorem c5_lookup_type_silently_returns :
    lookupType { types := [], passthrough_unknown := false, default_type := none }
      "Foo" false = .ok "Foo" ∧
    lookupType { types := [], passthrough_unknown := false, default_type := none }
      "Foo" true = .ok "Foo" := by
  constructor <;> rfl

/-- Claim C10: `map_type(None)` yields the void `MappedType` (`mapped` is the
literal string `"void"`, `kind = "void"`, `is_void = true`), and
`map_function` on a function whose `return_type` is `None` gets return
bridge `"void"` — the same return bridge as the same function with an
explicit void return type. -/
theorem c10_map_type_none_is_void :
    (∀ cfg : MappingConfig, mapType cfg none =
      .ok (.mk "void" (IRType.simple "void") "void" none false false true false
        none none none)) ∧
    (∀ (cfg : MappingConfig) (f : IRFunction), f.return_type = none →
      ∃ mf mf', mapFunction cfg f = .ok mf ∧ mf.return_bridge = "void" ∧
        mapFunction cfg { f with return_type := some (IRType.simple "void") } = .ok mf' ∧
        mf'.return_bridge = "void") := by
  refine ⟨fun cfg => rfl, fun cfg f hf => ?_⟩
  have h1 : mapType cfg f.return_type =
      .ok (.mk "void" (IRType.simple "void") "void" none false false true false
        none none none) := by rw [hf]; rfl
  obtain ⟨art, hart⟩ := apiType_ok cfg
    (some (.mk "void" (IRType.simple "void") "void" none false false true false none none none))
  obtain ⟨ps, hps⟩ := mapE_ok (mapParam cfg) f.params (fun a _ => mapParam_ok cfg a)
  have hcomp := mapFunction_eq_detail cfg f _ art ps h1 hart hps
  have h1' : mapType cfg ({ f with return_type := some (IRType.simple "void") } :
      IRFunction).return_type =
      .ok (.mk (dictGetD cfg.types "void" "void") (IRType.simple "void") "void" none
        false false true false none none none) := rfl
  obtain ⟨art', hart'⟩ := apiType_ok cfg
    (some (.mk (dictGetD cfg.types "void" "void") (IRType.simple "void") "void" none
      false false true false none none none))
  have hps' : mapE (mapParam cfg)
      ({ f with return_type := some (IRType.simple "void") } : IRFunction).params = .ok ps := hps
  have hcomp' := mapFunction_eq_detail cfg _ _ art' ps h1' hart' hps'
  exact ⟨_, _, hcomp, rfl, hcomp', rfl⟩

theorem getterPropertyName_strip (r : String) (hr : r ≠ "") :
    getterPropertyName ("Get" ++ r) = pyLower (pySliceTo r 1) ++ pySliceFrom r 1 := by
  have hd : r.data ≠ [] := by intro hc; exact hr (by cases r; simp_all)
  unfold getterPropertyName
  have h1 : pyStartsWith ("Get" ++ r) "Get" = true := by
    simp [pyStartsWith, String.data_append]
  have h2 : ¬ (pyLen ("Get" ++ r) ≤ 3) := by
    simp [pyLen, String.data_append]
    cases hx : r.data with
    | nil => exact absurd hx hd
    | cons a as => simp [String.length, hx]
  rw [h1]
  simp only [Bool.not_true, Bool.false_or, if_neg h2]
  have h3 : pySliceFrom ("Get" ++ r) 3 = r := by
    cases r with
    | mk d => rfl
  rw [h3]
  simp [h2]

/-- Claim C6: a method named `Get<X>` (at least one character after `Get`)
with zero parameters and a non-void return type is classified as a property
getter: `is_property = true` and the exposed property name is the name with
`Get` stripped and the first remaining character lower-cased. -/
theorem c6_getter_property (cfg : MappingConfig) (m : IRMethod) (c : IRClass) (r : String)
    (hname : m.name = "Get" ++ r) (hr : r ≠ "") (hparams : m.params = [])
    (hret : m.return_type.kind ≠ "void") :
    ∃ mm, mapMethod cfg m c = .ok mm ∧ mm.is_property = true ∧
      mm.property_name = pyLower (pySliceTo r 1) ++ pySliceFrom r 1 := by
  obtain ⟨rt, hrt, hkind, _⟩ := mapType_some_kind cfg m.return_type
  obtain ⟨art, hart⟩ := apiType_ok cfg (some rt)
  have hps : mapE (mapParam cfg) m.params = .ok [] := by rw [hparams]; rfl
  have hcomp := mapMethod_eq_detail cfg m c rt art [] hrt hart hps
  have hstart : pyStartsWith m.name "Get" = true := by
    rw [hname]; simp [pyStartsWith, String.data_append]
  have hkv : ¬ (rt.kind = "void") := by rw [hkind]; exact hret
  have hg : (pyStartsWith m.name "Get" && ([] : List MappedParam).length = 0 &&
      !(rt.kind = "void")) = true := by
    simp [hstart, hkv]
  refine ⟨_, hcomp, ?_, ?_⟩
  · show (let call_symbol := symbolForMethod cfg c m
          let params := ([] : List MappedParam).map
            (fun p => { p with call_args := paramCallArgs cfg p call_symbol })
          let is_getter := pyStartsWith m.name "Get" && params.length = 0 && !(rt.kind = "void")
          let is_bool_getter := pyStartsWith m.name "Is" && params.length = 0 &&
            pyLower art = "bool"
          (is_getter || is_bool_getter)) = true
    simp [hstart, hkv]
  · show (let call_symbol := symbolForMethod cfg c m
          let params := ([] : List MappedParam).map
            (fun p => { p with call_args := paramCallArgs cfg p call_symbol })
          let is_getter := pyStartsWith m.name "Get" && params.length = 0 && !(rt.kind = "void")
          let is_bool_getter := pyStartsWith m.name "Is" && params.length = 0 &&
            pyLower art = "bool"
          (if is_getter then getterPropertyName m.name
           else if is_bool_getter then NameTransformer.methodName cfg.naming m.name
           else "")) = pyLower (pySliceTo r 1) ++ pySliceFrom r 1
    dsimp only
    simp only [List.map_nil, List.length_nil, hstart, eq_self_iff_true, hkv,
      Bool.and_eq_true, decide_eq_true_eq]
    rw [if_pos ⟨⟨trivial, trivial⟩, by simp [hkv]⟩]
    rw [hname, getterPropertyName_strip r hr]

/-- Witness for C6: `GetWidth` with no parameters and `int` return becomes a
property named `"width"`. -/
theorem c6_getter_property_witness :
    (({ name := "GetWidth"
        return_type := .mk "primitive" (some "int") none none none [] none } :
        IRMethod).name = "Get" ++ "Width") ∧
    ("Width" ≠ "") ∧
    (({ name := "GetWidth"
        return_type := .mk "primitive" (some "int") none none none [] none } :
        IRMethod).params = []) ∧
    (({ name := "GetWidth"
        return_type := .mk "primitive" (some "int") none none none [] none } :
        IRMethod).return_type.kind ≠ "void") ∧
    (pyLower (pySliceTo "Width" 1) ++ pySliceFrom "Width" 1 = "width") ∧
    ∃ mm, mapMethod { } ({ name := "GetWidth"
                           return_type := .mk "primitive" (some "int") none none none [] none } :
        IRMethod)
        { name := "Window" } = .ok mm ∧
      mm.is_property = true ∧
      mm.property_name = pyLower (pySliceTo "Width" 1) ++ pySliceFrom "Width" 1 :=
  ⟨by decide, by decide, rfl, by decide, by decide,
    c6_getter_property { } _ { name := "Window" } "Width" (by decide) (by decide) rfl
      (by decide)⟩

/-- Claim C7: for a const-qualified pointer to primitive `char`, `map_type`
resolves the mapped string in this order: the `"const char*"` table entry,
then the `"char*"` entry, then (the `void*` special case being inapplicable)
the configured `const_char_pointer_type`, and only then the
`const_pointer_format` with the mapped pointee substituted.  In particular,
when `const_char_pointer_type` is set and neither table entry exists, the
result is exactly the configured string, overriding the format. -/
theorem c7_const_char_pointer (cfg : MappingConfig) (name : Option String)
    (element : Option IRType) (length : Option Int) (q : List String) (sc : Option Bool)
    (u : IRType)
    (hq : q.contains "const" = true) (huk : u.kind = "primitive")
    (hun : u.name = some "char") :
    ∃ m mi, mapType cfg (some (.mk "pointer" name (some u) element length q sc)) = .ok m ∧
      mapTypeCore cfg u = .ok mi ∧
      ((∀ v, cfg.types.lookup "const char*" = some v → m.mapped = v) ∧
       (cfg.types.lookup "const char*" = none →
         ((∀ v, cfg.types.lookup "char*" = some v → m.mapped = v) ∧
          (cfg.types.lookup "char*" = none →
            ((pyTruthyOptStr cfg.const_char_pointer_type = true →
               m.mapped = cfg.const_char_pointer_type.getD "") ∧
             (pyTruthyOptStr cfg.const_char_pointer_type = false →
               m.mapped = pyFormat1 cfg.const_pointer_format "inner" mi.mapped)))))) := by
  obtain ⟨mi, hmi, _, _⟩ := mapTypeCore_ok cfg u
  have hpk : ptrKeyOf (some u) = some "char*" := by
    rw [show ptrKeyOf (some u) =
      (if u.kind = "void" then some "void*"
       else if u.kind = "primitive" && pyTruthyOptStr u.name then some (u.name.getD "" ++ "*")
       else if pyTruthyOptStr u.name then some (u.name.getD "" ++ "*")
       else none) from rfl, huk, hun]
    decide
  have histr : innerStrOf (some mi) = mi.mapped := rfl
  have hcore : mapTypeCore cfg (.mk "pointer" name (some u) element length q sc) =
      mapTypeCore cfg u >>= fun r =>
        mapTypePointerRest cfg (.mk "pointer" name (some u) element length q sc)
          (q.contains "const") (some u) (some r) := by
    cases element with
    | none =>
      rw [mapTypeCore_eq_sn]
      dsimp only
      rw [if_neg (by decide), if_pos rfl]
    | some e =>
      rw [mapTypeCore_eq_ss]
      dsimp only
      rw [if_neg (by decide), if_pos rfl]
  have h1 : mapType cfg (some (.mk "pointer" name (some u) element length q sc)) =
      mapTypePointerRest cfg (.mk "pointer" name (some u) element length q sc)
        (q.contains "const") (some u) (some mi) := by
    show mapTypeCore cfg _ = _
    rw [hcore, exceptBind_ok hmi]
  have hred : ∀ X : String, ptrMappedStr cfg true (some "char*") X =
      (if dictMem cfg.types "const char*" then dictGet cfg.types "const char*"
       else if dictMem cfg.types "char*" then dictGet cfg.types "char*"
       else if pyTruthyOptStr cfg.void_pointer_type && ("char*" = "void*") then
         pure (cfg.void_pointer_type.getD "")
       else if pyTruthyOptStr cfg.const_char_pointer_type && ("char*" = "char*") then
         pure (cfg.const_char_pointer_type.getD "")
       else pure (pyFormat1 cfg.const_pointer_format "inner" X)) := fun X => rfl
  have hfin : ∀ V : String,
      ptrMappedStr cfg true (some "char*") mi.mapped = .ok V →
      ∃ m, mapType cfg (some (.mk "pointer" name (some u) element length q sc)) = .ok m ∧
        m.mapped = V := by
    intro V hV
    refine ⟨.mk V (.mk "pointer" name (some u) element length q sc) "pointer" none
      true false false (q.contains "const") (some mi) none none, ?_, rfl⟩
    rw [h1]
    unfold mapTypePointerRest
    rw [hq, hpk, histr, exceptBind_ok hV]
    rfl
  cases hc1 : cfg.types.lookup "const char*" with
  | some v =>
    have hmem : dictMem cfg.types "const char*" = true := by
      unfold dictMem; rw [hc1]; rfl
    have hps : ptrMappedStr cfg true (some "char*") mi.mapped = .ok v := by
      rw [hred, if_pos hmem]
      unfold dictGet; rw [hc1]
    obtain ⟨m, hm, hmv⟩ := hfin v hps
    refine ⟨m, mi, hm, hmi, ?_, ?_⟩
    · intro v' hv'; cases hv'; exact hmv
    · intro h; cases h
  | none =>
    have hmem1 : ¬ (dictMem cfg.types "const char*" = true) := by
      simp [dictMem, hc1]
    cases hc2 : cfg.types.lookup "char*" with
    | some w =>
      have hmem2 : dictMem cfg.types "char*" = true := by
        unfold dictMem; rw [hc2]; rfl
      have hps : ptrMappedStr cfg true (some "char*") mi.mapped = .ok w := by
        rw [hred, if_neg hmem1, if_pos hmem2]
        unfold dictGet; rw [hc2]
      obtain ⟨m, hm, hmv⟩ := hfin w hps
      refine ⟨m, mi, hm, hmi, ?_, ?_⟩
      · intro v' hv'; cases hv'
      · intro _; refine ⟨?_, ?_⟩
        · intro w' hw'; cases hw'; exact hmv
        · intro h; cases h
    | none =>
      have hmem2 : ¬ (dictMem cfg.types "char*" = true) := by
        simp [dictMem, hc2]
      cases hc3 : pyTruthyOptStr cfg.const_char_pointer_type with
      | true =>
        have hps : ptrMappedStr cfg true (some "char*") mi.mapped =
            .ok (cfg.const_char_pointer_type.getD "") := by
          rw [hred, if_neg hmem1, if_neg hmem2, if_neg (by simp), if_pos (by simp [hc3])]
          rfl
        obtain ⟨m, hm, hmv⟩ := hfin _ hps
        refine ⟨m, mi, hm, hmi, ?_, ?_⟩
        · intro v' hv'; cases hv'
        · intro _; refine ⟨?_, ?_⟩
          · intro w' hw'; cases hw'
          · intro _; refine ⟨fun _ => hmv, ?_⟩
            intro hcc; simp at hcc
      | false =>
        have hps : ptrMappedStr cfg true (some "char*") mi.mapped =
            .ok (pyFormat1 cfg.const_pointer_format "inner" mi.mapped) := by
          rw [hred, if_neg hmem1, if_neg hmem2, if_neg (by simp), if_neg (by simp [hc3])]
          rfl
        obtain ⟨m, hm, hmv⟩ := hfin _ hps
        refine ⟨m, mi, hm, hmi, ?_, ?_⟩
        · intro v' hv'; cases hv'
        · intro _; refine ⟨?_, ?_⟩
          · intro w' hw'; cases hw'
          · intro _; refine ⟨?_, fun _ => hmv⟩
            intro hcc; simp at hcc

/-- Witness for C7: with `const_char_pointer_type = "string_view"` and an
empty type table, `const char*` maps to `"string_view"`. -/
theorem c7_const_char_pointer_witness :
    ((["const"] : List String).contains "const" = true) ∧
    ((IRType.mk "primitive" (some "char") none none none [] none).kind = "primitive") ∧
    ((IRType.mk "primitive" (some "char") none none none [] none).name = some "char") ∧
    ∃ m mi, mapType { const_char_pointer_type := some "string_view" }
        (some (.mk "pointer" none
          (some (.mk "primitive" (some "char") none none none [] none))
          none none ["const"] none)) = .ok m ∧
      mapTypeCore { const_char_pointer_type := some "string_view" }
        (.mk "primitive" (some "char") none none none [] none) = .ok mi ∧
      ((∀ v, ({ const_char_pointer_type := some "string_view" } :
          MappingConfig).types.lookup "const char*" = some v → m.mapped = v) ∧
       (({ const_char_pointer_type := some "string_view" } :
          MappingConfig).types.lookup "const char*" = none →
         ((∀ v, ({ const_char_pointer_type := some "string_view" } :
             MappingConfig).types.lookup "char*" = some v → m.mapped = v) ∧
          (({ const_char_pointer_type := some "string_view" } :
             MappingConfig).types.lookup "char*" = none →
            ((pyTruthyOptStr ({ const_char_pointer_type := some "string_view" } :
                MappingConfig).const_char_pointer_type = true →
               m.mapped = ({ const_char_pointer_type := some "string_view" } :
                MappingConfig).const_char_pointer_type.getD "") ∧
             (pyTruthyOptStr ({ const_char_pointer_type := some "string_view" } :
                MappingConfig).const_char_pointer_type = false →
               m.mapped = pyFormat1 ({ const_char_pointer_type := some "string_view" } :
                MappingConfig).const_pointer_format "inner" mi.mapped)))))) :=
  ⟨by decide, by decide, by decide,
    c7_const_char_pointer { const_char_pointer_type := some "string_view" }
      none none none ["const"] none
      (.mk "primitive" (some "char") none none none [] none)
      (by decide) (by decide) (by decide)⟩

/-- Witness for C10 at a concrete function with absent return type. -/
theorem c10_map_type_none_is_void_witness :
    (({ name := "na_poll" } : IRFunction).return_type = none) ∧
    ∃ mf mf', mapFunction { } ({ name := "na_poll" } : IRFunction) = .ok mf ∧
      mf.return_bridge = "void" ∧
      mapFunction { } { ({ name := "na_poll" } : IRFunction) with
        return_type := some (IRType.simple "void") } = .ok mf' ∧
      mf'.return_bridge = "void" :=
  ⟨rfl, c10_map_type_none_is_void.2 { } { name := "na_poll" } rfl⟩

/-- Claim C8 (corrected): `transform_name` strips, then styles, then adds
affixes; at most one prefix is stripped with the longest matching prefix
winning, and at most one suffix with the longest matching suffix winning
(each stated for a two-candidate list in both orders; the suffix conjunct
also records that the result is the name with that suffix removed, which
requires the winning suffix to be nonempty — here implied by it being the
strictly longer candidate); and with `strip_prefixes=["na_"]` and
`pascal_case`, `na_window_create` becomes `WindowCreate`.  The companion
counterexample shows the unconditional suffix half of the frozen claim is
false: an empty string in `strip_suffixes` matches every name and Python's
`result[:-0]` erases the whole name instead of stripping nothing. -/
theorem c8_transform_name_pipeline :
    (∀ (name style : String) (ps ss : List String) (ap asuf : String),
      transform_name name style ps ss ap asuf =
        add_affixes (apply_style (strip_affixes name ps ss) style) ap asuf) ∧
    (∀ (name p q : String), pyStartsWith name p = true → pyStartsWith name q = true →
      pyLen p < pyLen q →
      strip_affixes name [p, q] [] = pySliceFrom name (pyLen q) ∧
      strip_affixes name [q, p] [] = pySliceFrom name (pyLen q)) ∧
    (∀ (name s t : String), pyEndsWith name s = true → pyEndsWith name t = true →
      pyLen s < pyLen t →
      strip_affixes name [] [s, t] = pySliceToNeg name (pyLen t) ∧
      strip_affixes name [] [t, s] = pySliceToNeg name (pyLen t) ∧
      pySliceToNeg name (pyLen t) ++ t = name) ∧
    transform_name "na_window_create" "pascal_case" ["na_"] [] "" "" = "WindowCreate" := by
  refine ⟨fun _ _ _ _ _ _ => rfl, ?_, ?_, by decide⟩
  · intro name p q hp hq hlen
    unfold pyLen at hlen
    have hle : lenDescLe p q = false := by
      simp only [lenDescLe, decide_eq_false_iff_not, Nat.not_le]
      exact hlen
    have hle2 : lenDescLe q p = true := by
      simp only [lenDescLe, decide_eq_true_eq]
      exact Nat.le_of_lt hlen
    have hs1 : sortByLenDesc [p, q] = [q, p] := by
      simp [sortByLenDesc, isort, sinsert, hle]
    have hs2 : sortByLenDesc [q, p] = [q, p] := by
      simp [sortByLenDesc, isort, sinsert, hle2]
    constructor
    · unfold strip_affixes
      rw [hs1]
      simp [List.find?, hq, sortByLenDesc, isort]
    · unfold strip_affixes
      rw [hs2]
      simp [List.find?, hq, sortByLenDesc, isort]
  · intro name s t hs ht hlen
    have hlend : s.data.length < t.data.length := hlen
    have hle : lenDescLe s t = false := by
      simp only [lenDescLe, decide_eq_false_iff_not, Nat.not_le]
      exact hlend
    have hle2 : lenDescLe t s = true := by
      simp only [lenDescLe, decide_eq_true_eq]
      exact Nat.le_of_lt hlend
    have hs1 : sortByLenDesc [s, t] = [t, s] := by
      simp [sortByLenDesc, isort, sinsert, hle]
    have hs2 : sortByLenDesc [t, s] = [t, s] := by
      simp [sortByLenDesc, isort, sinsert, hle2]
    have htne : ¬ (pyLen t = 0) := by
      unfold pyLen
      omega
    refine ⟨?_, ?_, ?_⟩
    · unfold strip_affixes
      rw [hs1]
      simp [List.find?, ht, sortByLenDesc, isort]
    · unfold strip_affixes
      rw [hs2]
      simp [List.find?, ht, sortByLenDesc, isort]
    · have hsuf : t.data <:+ name.data := by
        unfold pyEndsWith at ht
        exact List.isSuffixOf_iff_suffix.mp ht
      obtain ⟨pre, hpre⟩ := hsuf
      unfold pySliceToNeg
      rw [if_neg htne]
      have hlen_name : name.data.length = pre.length + t.data.length := by
        rw [← hpre, List.length_append]
      have htake : name.data.take (name.data.length - pyLen t) = pre := by
        show name.data.take (name.data.length - t.data.length) = pre
        rw [hlen_name, Nat.add_sub_cancel, ← hpre, List.take_left]
      rw [htake]
      rw [show (⟨pre⟩ : String) ++ t = ⟨pre ++ t.data⟩ from rfl, hpre]

/-- **C8** counterexample to the suffix half of the claim as frozen: the
empty suffix matches every name (`"foo".endswith("")` is `True`), yet the
loop body computes `result[:-0] = result[:0] = ""`, erasing the whole name
rather than stripping the matched (empty) suffix, so the result is not the
name with at most one matching suffix removed. -/
theorem c8_transform_name_pipeline_counterexample :
    pyEndsWith "foo" "" = true ∧
    strip_affixes "foo" [] [""] = "" ∧
    strip_affixes "foo" [] [""] ≠ "foo" :=
  ⟨by decide, by decide, by decide⟩

/-- Witness for C8's longest-match conjuncts (prefix and suffix) at concrete
inputs. -/
theorem c8_transform_name_pipeline_witness :
    ((pyStartsWith "na_win" "n" = true) ∧ (pyStartsWith "na_win" "na_" = true) ∧
     (pyLen "n" < pyLen "na_") ∧
     (strip_affixes "na_win" ["n", "na_"] [] = pySliceFrom "na_win" (pyLen "na_") ∧
      strip_affixes "na_win" ["na_", "n"] [] = pySliceFrom "na_win" (pyLen "na_"))) ∧
    ((pyEndsWith "win_t" "t" = true) ∧ (pyEndsWith "win_t" "_t" = true) ∧
     (pyLen "t" < pyLen "_t") ∧
     (strip_affixes "win_t" [] ["t", "_t"] = pySliceToNeg "win_t" (pyLen "_t") ∧
      strip_affixes "win_t" [] ["_t", "t"] = pySliceToNeg "win_t" (pyLen "_t") ∧
      pySliceToNeg "win_t" (pyLen "_t") ++ "_t" = "win_t")) :=
  ⟨⟨by decide, by decide, by decide,
    c8_transform_name_pipeline.2.1 "na_win" "n" "na_" (by decide) (by decide) (by decide)⟩,
   ⟨by decide, by decide, by decide,
    c8_transform_name_pipeline.2.2.1 "win_t" "t" "_t" (by decide) (by decide) (by decide)⟩⟩

theorem listLeCh_total : ∀ a b : List Char, listLeCh a b = false → listLeCh b a = true
  | [], b => by intro h; simp [listLeCh] at h
  | a :: as, [] => by intro _; simp [listLeCh]
  | a :: as, b :: bs => by
    intro h
    unfold listLeCh at h ⊢
    by_cases h1 : a < b
    · simp [h1] at h
    · by_cases h2 : b < a
      · simp [h1, h2] at h ⊢
      · simp [h1, h2] at h ⊢
        exact listLeCh_total as bs h

theorem listLeCh_trans : ∀ a b c : List Char,
    listLeCh a b = true → listLeCh b c = true → listLeCh a c = true
  | [], _, _ => by intro _ _; simp [listLeCh]
  | a :: as, [], _ => by intro h _; simp [listLeCh] at h
  | a :: as, b :: bs, [] => by intro _ h; simp [listLeCh] at h
  | a :: as, b :: bs, c :: cs => by
    intro h1 h2
    unfold listLeCh at h1 h2 ⊢
    by_cases hab : a < b
    · by_cases hbc : b < c
      · simp [lt_trans hab hbc]
      · by_cases hcb : c < b
        · simp [hbc, hcb] at h2
        · have hbceq : b = c := le_antisymm (le_of_not_lt hcb) (le_of_not_lt hbc)
          subst hbceq
          simp [hab]
    · by_cases hba : b < a
      · simp [hab, hba] at h1
      · have habeq : a = b := le_antisymm (le_of_not_lt hba) (le_of_not_lt hab)
        subst habeq
        by_cases hac : a < c
        · simp [hac]
        · by_cases hca : c < a
          · simp [hac, hca] at h2
          · simp [hac, hca] at h2 ⊢
            exact listLeCh_trans as bs cs (by simpa [hab, hba] using h1) h2

theorem listLeCh_antisymm : ∀ a b : List Char,
    listLeCh a b = true → listLeCh b a = true → a = b
  | [], [] => by intro _ _; rfl
  | [], b :: bs => by intro _ h2; simp [listLeCh] at h2
  | a :: as, [] => by intro h1 _; simp [listLeCh] at h1
  | a :: as, b :: bs => by
    intro h1 h2
    unfold listLeCh at h1 h2
    by_cases hab : a < b
    · simp [hab, lt_asymm hab] at h2
    · by_cases hba : b < a
      · simp [hab, hba] at h1
      · have habeq : a = b := le_antisymm (le_of_not_lt hba) (le_of_not_lt hab)
        subst habeq
        simp [hab] at h1 h2
        rw [listLeCh_antisymm as bs h1 h2]

theorem strLeB_total (a b : String) (h : strLeB a b = false) : strLeB b a = true :=
  listLeCh_total a.data b.data h

theorem strLeB_trans (a b c : String) (h1 : strLeB a b = true) (h2 : strLeB b c = true) :
    strLeB a c = true :=
  listLeCh_trans a.data b.data c.data h1 h2

theorem strLeB_antisymm (a b : String) (h1 : strLeB a b = true) (h2 : strLeB b a = true) :
    a = b := by
  cases a; cases b
  exact congrArg String.mk (listLeCh_antisymm _ _ h1 h2)

theorem mem_sinsert {le : α → α → Bool} {x a : α} {l : List α} :
    a ∈ sinsert le x l ↔ a = x ∨ a ∈ l := by
  induction l with
  | nil => simp [sinsert]
  | cons y ys ih =>
    unfold sinsert
    by_cases h : le x y = true
    · simp [h]
    · simp only [if_neg h, List.mem_cons, ih]
      tauto

theorem pairwise_sinsert {le : α → α → Bool}
    (htot : ∀ a b, le a b = false → le b a = true)
    (htrans : ∀ a b c, le a b = true → le b c = true → le a c = true)
    (x : α) (l : List α) (h : l.Pairwise (fun a b => le a b = true)) :
    (sinsert le x l).Pairwise (fun a b => le a b = true) := by
  induction l with
  | nil => simp [sinsert]
  | cons y ys ih =>
    rw [List.pairwise_cons] at h
    obtain ⟨hy, hys⟩ := h
    unfold sinsert
    by_cases hxy : le x y = true
    · rw [if_pos hxy]
      refine List.Pairwise.cons ?_ (List.Pairwise.cons hy hys)
      intro b hb
      rcases List.mem_cons.mp hb with rfl | hb'
      · exact hxy
      · exact htrans x y b hxy (hy b hb')
    · rw [if_neg hxy]
      refine List.Pairwise.cons ?_ (ih hys)
      intro b hb
      rcases mem_sinsert.mp hb with rfl | hb'
      · exact htot _ _ (Bool.not_eq_true _ ▸ hxy)
      · exact hy b hb'

theorem perm_sinsert {le : α → α → Bool} (x : α) (l : List α) :
    (sinsert le x l).Perm (x :: l) := by
  induction l with
  | nil => simp [sinsert]
  | cons y ys ih =>
    unfold sinsert
    by_cases h : le x y = true
    · simp [h]
    · rw [if_neg h]
      exact List.Perm.trans (List.Perm.cons y ih) (List.Perm.swap x y ys)

theorem pairwise_isort {le : α → α → Bool}
    (htot : ∀ a b, le a b = false → le b a = true)
    (htrans : ∀ a b c, le a b = true → le b c = true → le a c = true)
    (l : List α) : (isort le l).Pairwise (fun a b => le a b = true) := by
  induction l with
  | nil => simp [isort]
  | cons x xs ih => exact pairwise_sinsert htot htrans x (isort le xs) ih

theorem perm_isort {le : α → α → Bool} (l : List α) : (isort le l).Perm l := by
  induction l with
  | nil => simp [isort]
  | cons x xs ih =>
    unfold isort
    exact (perm_sinsert x (isort le xs)).trans (List.Perm.cons x ih)

/-- Claim C9: in the module returned by `normalize_translation_unit`, every
file bucket's item list is sorted ascending by item name: each adjacent pair
satisfies Python's `items[i].name <= items[i+1].name` (the embedded `strLeB`). -/
theorem c9_normalizer_items_sorted (m : IRModule) :
    ∀ pf ∈ (normalizeSortBuckets m).files,
      List.Chain' (fun a b : IRItem => strLeB a.name b.name = true) pf.2.items := by
  intro pf hpf
  unfold normalizeSortBuckets at hpf
  rw [List.mem_map] at hpf
  obtain ⟨⟨p0, f0⟩, _, heq⟩ := hpf
  subst heq
  have hp := @pairwise_isort IRItem (fun a b => strLeB a.name b.name)
    (fun a b h => strLeB_total _ _ h)
    (fun a b c h1 h2 => strLeB_trans _ _ _ h1 h2) f0.items
  exact List.Pairwise.chain' hp

/-- Witness for C9 on a concrete two-item module. -/
theorem c9_normalizer_items_sorted_witness :
    (("a.h", ({ items := [.const { name := "A" }, .const { name := "B" }] } : IRFile)) ∈
      (normalizeSortBuckets { files := [("a.h",
        { items := [.const { name := "B" }, .const { name := "A" }] })] }).files) ∧
    List.Chain' (fun a b : IRItem => strLeB a.name b.name = true)
      (("a.h", ({ items := [.const { name := "A" }, .const { name := "B" }] } :
        IRFile)).2.items) :=
  ⟨by decide, c9_normalizer_items_sorted
    { files := [("a.h", { items := [.const { name := "B" }, .const { name := "A" }] })] }
    _ (by decide)⟩

/-! ## Claim C4: generator output paths -/

theorem splitCh_ne_nil (c : Char) (l : List Char) : splitCh c l ≠ [] := by
  cases l with
  | nil => simp [splitCh]
  | cons x xs =>
    unfold splitCh
    cases h : splitCh c xs with
    | nil => simp
    | cons r rs =>
      by_cases hx : x == c
      · simp [hx]
      · simp [hx]

theorem splitCh_sep_not_mem (c : Char) (l : List Char) :
    ∀ piece ∈ splitCh c l, c ∉ piece := by
  induction l with
  | nil => intro piece hp; simp [splitCh] at hp; simp [hp]
  | cons x xs ih =>
    intro piece hp
    unfold splitCh at hp
    cases hsp : splitCh c xs with
    | nil => exact absurd hsp (splitCh_ne_nil c xs)
    | cons r rs =>
      rw [hsp] at hp
      dsimp only at hp
      by_cases hx : x == c
      · rw [if_pos hx] at hp
        rcases List.mem_cons.mp hp with rfl | hp'
        · simp
        · exact ih piece (hsp ▸ hp')
      · rw [if_neg hx] at hp
        rcases List.mem_cons.mp hp with rfl | hp'
        · intro hc
          rcases List.mem_cons.mp hc with rfl | hc'
          · exact hx (beq_self_eq_true c)
          · exact ih r (hsp ▸ List.mem_cons_self r rs) hc'
        · exact ih piece (hsp ▸ List.mem_cons.mpr (Or.inr hp'))

theorem splitCh_no_sep (c : Char) (l : List Char) (h : c ∉ l) : splitCh c l = [l] := by
  induction l with
  | nil => rfl
  | cons x xs ih =>
    have hx : ¬ (x == c) = true := by
      simp only [beq_iff_eq]
      intro hc; exact h (hc ▸ List.mem_cons_self x xs)
    have hxs : c ∉ xs := fun hc => h (List.mem_cons.mpr (Or.inr hc))
    unfold splitCh
    rw [ih hxs]
    dsimp only
    rw [if_neg hx]

theorem parsePPath_parts_no_slash (s : String) :
    ∀ part ∈ (parsePPath s).parts, '/' ∉ part.data := by
  intro part hpart
  unfold parsePPath at hpart
  simp only [List.mem_filter, List.mem_map] at hpart
  obtain ⟨⟨piece, hpiece, heq⟩, _⟩ := hpart
  subst heq
  exact splitCh_sep_not_mem '/' s.data piece hpiece

theorem ppath_name_no_slash (s : String) : '/' ∉ (parsePPath s).name.data := by
  unfold PPath.name
  cases hl : (parsePPath s).parts.getLast? with
  | none => simp
  | some lastPart =>
    simp only [Option.getD_some]
    obtain ⟨hne, heq⟩ := List.mem_getLast?_eq_getLast hl
    exact parsePPath_parts_no_slash s lastPart (heq ▸ List.getLast_mem hne)

theorem stemOfName_no_slash (name : String) (h : '/' ∉ name.data) :
    '/' ∉ (stemOfName name).data := by
  unfold stemOfName
  cases rfindCh '.' name.data with
  | none => exact h
  | some i =>
    dsimp only
    by_cases hc : 0 < i ∧ i < name.data.length - 1
    · rw [if_pos hc]
      intro hmem
      exact h (List.take_subset i name.data hmem)
    · rw [if_neg hc]; exact h

theorem ppath_stem_no_slash (s : String) : '/' ∉ (parsePPath s).stem.data :=
  stemOfName_no_slash _ (ppath_name_no_slash s)

theorem ppath_parts_ne_nil_of_stem (s : String) (h : (parsePPath s).stem ≠ "") :
    (parsePPath s).parts ≠ [] := by
  intro hnil
  apply h
  have hname : (parsePPath s).name = "" := by
    unfold PPath.name
    rw [hnil]
    rfl
  show stemOfName (parsePPath s).name = ""
  rw [hname]
  rfl

theorem pyStartsWith_slash_eq_false (s : String) (h : '/' ∉ s.data) :
    pyStartsWith s "/" = false := by
  unfold pyStartsWith
  rw [show ("/").data = ['/'] from rfl]
  cases hd : s.data with
  | nil => rfl
  | cons c rest =>
    have hc : ('/' == c) = false := by
      have h' : '/' ∉ c :: rest := hd ▸ h
      simp only [beq_eq_false_iff_ne, ne_eq]
      intro heq
      exact h' (heq ▸ List.mem_cons_self c rest)
    simp [List.isPrefixOf, hc]

theorem parsePPath_single (s : String) (hs : s ≠ "") (hdot : s ≠ ".") (hns : '/' ∉ s.data) :
    parsePPath s = { absolute := false, parts := [s] } := by
  unfold parsePPath
  rw [pyStartsWith_slash_eq_false s hns, splitCh_no_sep '/' s.data hns]
  simp only [List.map_cons, List.map_nil]
  rw [show (String.mk s.data) = s from rfl]
  simp [List.filter, hs, hdot]

theorem ppath_parent_eq (p : PPath) :
    p.parent = { absolute := p.absolute, parts := p.parts.dropLast } := by
  cases p with
  | mk a ps =>
    unfold PPath.parent
    cases ps with
    | nil => rfl
    | cons x xs => rw [if_neg (by simp)]

theorem ppath_join_rel (a b : PPath) (h : b.absolute = false) :
    a.join b = { absolute := a.absolute, parts := a.parts ++ b.parts } := by
  unfold PPath.join
  rw [if_neg (by simp [h])]

theorem string_append_data (a b : String) : (a ++ b).data = a.data ++ b.data := rfl

theorem stem_dot_stem_ne_empty (stem tstem : String) :
    stem ++ "." ++ tstem ≠ "" := by
  intro hc
  have hd : (stem ++ "." ++ tstem).data = [] := by rw [hc]
  rw [string_append_data, string_append_data] at hd
  have : '.' ∈ stem.data ++ ("." : String).data ++ tstem.data := by
    simp [List.mem_append]
  rw [hd] at this
  exact absurd this (List.not_mem_nil '.')

theorem stem_dot_stem_ne_dot (stem tstem : String) (h : stem ≠ "") :
    stem ++ "." ++ tstem ≠ "." := by
  intro hc
  have hsd : stem.data ≠ [] := fun hn => h (String.ext hn)
  have hd : (stem ++ "." ++ tstem).data = ['.'] := by rw [hc]
  rw [string_append_data, string_append_data] at hd
  have hlen := congrArg List.length hd
  simp only [List.length_append, List.length_cons, List.length_nil] at hlen
  have h1 : 1 ≤ stem.data.length := List.length_pos.mpr hsd
  omega

theorem stem_dot_stem_no_slash (stem tstem : String)
    (h1 : '/' ∉ stem.data) (h2 : '/' ∉ tstem.data) :
    '/' ∉ (stem ++ "." ++ tstem).data := by
  rw [string_append_data, string_append_data]
  intro hc
  rcases List.mem_append.mp hc with hc' | hc'
  · rcases List.mem_append.mp hc' with hc'' | hc''
    · exact h1 hc''
    · simp at hc''
  · exact h2 hc'

/-- **C4.** Corrected form of the generator output-path claim.  For a relative
source-file path with a nonempty stem, `_compute_output_path` returns
`<output-root>/<source-file-directory>/<raw-file-stem>.<template-stem>`: the
stem is taken verbatim from the source path and the configured `file_name`
naming rule is never applied (the counterexample below separates the code
from the spec's transformed-stem formula). -/
theorem c4_output_path (ir_file_path template_name : String) (out_dir : PPath)
    (hrel : (parsePPath ir_file_path).absolute = false)
    (hstem : (parsePPath ir_file_path).stem ≠ "") :
    compute_output_path ir_file_path template_name out_dir =
      { absolute := out_dir.absolute
        parts := out_dir.parts ++ (parsePPath ir_file_path).parts.dropLast ++
          [(parsePPath ir_file_path).stem ++ "." ++ (parsePPath template_name).stem] } := by
  have h1 := stem_dot_stem_ne_empty (parsePPath ir_file_path).stem
    (parsePPath template_name).stem
  have h2 := stem_dot_stem_ne_dot (parsePPath ir_file_path).stem
    (parsePPath template_name).stem hstem
  have h3 := stem_dot_stem_no_slash (parsePPath ir_file_path).stem
    (parsePPath template_name).stem (ppath_stem_no_slash ir_file_path)
    (ppath_stem_no_slash template_name)
  show (out_dir.join (parsePPath ir_file_path).parent).join
      (parsePPath ((parsePPath ir_file_path).stem ++ "." ++
        (parsePPath template_name).stem)) = _
  rw [parsePPath_single _ h1 h2 h3, ppath_parent_eq,
    ppath_join_rel out_dir
      ⟨(parsePPath ir_file_path).absolute, (parsePPath ir_file_path).parts.dropLast⟩ hrel]
  rfl

/-- **C4** witness: concrete evaluation of the corrected formula on
`src/geometry_utils.h` with template `dart.j2` and output root `out`. -/
theorem c4_output_path_witness :
    (parsePPath "src/geometry_utils.h").absolute = false ∧
    (parsePPath "src/geometry_utils.h").stem ≠ "" ∧
    compute_output_path "src/geometry_utils.h" "dart.j2" ⟨false, ["out"]⟩ =
      { absolute := (⟨false, ["out"]⟩ : PPath).absolute
        parts := (⟨false, ["out"]⟩ : PPath).parts ++
          (parsePPath "src/geometry_utils.h").parts.dropLast ++
          [(parsePPath "src/geometry_utils.h").stem ++ "." ++
            (parsePPath "dart.j2").stem] } :=
  ⟨by decide, by decide,
    c4_output_path "src/geometry_utils.h" "dart.j2" ⟨false, ["out"]⟩
      (by decide) (by decide)⟩

/-- **C4** counterexample to the claim as stated: with `file_name` naming set
to `pascal_case`, the spec's formula (stem transformed by the file-name naming
rule) gives `out/src/GeometryUtils.dart` while the code gives
`out/src/geometry_utils.dart`; the two disagree, so the generator does not
apply the configured file-name transform. -/
theorem c4_output_path_counterexample :
    compute_output_path "src/geometry_utils.h" "dart.j2" ⟨false, ["out"]⟩ ≠
      specClaimedOutputPath { file_name := "pascal_case" } "src/geometry_utils.h"
        "dart.j2" ⟨false, ["out"]⟩ := by decide

/-! ## Claim C2: serializer round trip -/

theorem jAsStrOpt_serializeOptStr (o : Option String) : jAsStrOpt (serializeOptStr o) = o := by
  cases o <;> rfl

theorem jAsIntOpt_serializeOptInt (o : Option Int) : jAsIntOpt (serializeOptInt o) = o := by
  cases o <;> rfl

theorem jAsBoolOpt_serializeOptBool (o : Option Bool) : jAsBoolOpt (serializeOptBool o) = o := by
  cases o <;> rfl

theorem jAsPyVal_serializePyVal (v : PyVal) : jAsPyVal (serializePyVal v) = v := by
  cases v <;> rfl

theorem jAsStrList_map_str (l : List String) : jAsStrList (.arr (l.map Json.str)) = l := by
  induction l with
  | nil => rfl
  | cons x xs ih =>
    show jAsStr (Json.str x) "" :: (xs.map Json.str).map (fun j => jAsStr j "") = x :: xs
    rw [show ((xs.map Json.str).map (fun j => jAsStr j "")) =
      jAsStrList (.arr (xs.map Json.str)) from rfl, ih]
    rfl

theorem jTruthy_serializeType (t : IRType) : jTruthy (serializeType t) = true := by
  rcases t with ⟨k, n, toTy, el, len, q, sc⟩
  rcases toTy with _ | u <;> rcases el with _ | e <;> rfl

/-- `_parse_ir_type` inverts `asdict` on an `IRType` whenever the fuel covers
the serialized tree's size (`parse_ir_type` always passes exactly that size). -/
theorem parse_serializeType : (t : IRType) → (fuel : Nat) →
    jsize (serializeType t) ≤ fuel → parse_ir_type_f fuel (serializeType t) = t
  | .mk k n none none len q sc, fuel, h => by
    have hexp : jsize (serializeType (.mk k n none none len q sc)) =
        1 + (1 + (jsize (serializeOptStr n) + (1 + (1 + (jsize (serializeOptInt len) +
          (jsize (Json.arr (q.map Json.str)) + (jsize (serializeOptBool sc) + 0))))))) := rfl
    rw [hexp] at h
    cases fuel with
    | zero => omega
    | succ f =>
      have hstep : parse_ir_type_f (f + 1) (serializeType (.mk k n none none len q sc)) =
          .mk (jAsStr (.str k) "") (jAsStrOpt (serializeOptStr n))
            (if jTruthy Json.null then some (parse_ir_type_f f Json.null) else none)
            (if jTruthy Json.null then some (parse_ir_type_f f Json.null) else none)
            (jAsIntOpt (serializeOptInt len))
            (jAsStrList (.arr (q.map Json.str)))
            (jAsBoolOpt (serializeOptBool sc)) := rfl
      rw [hstep, jAsStrOpt_serializeOptStr, jAsIntOpt_serializeOptInt,
        jAsBoolOpt_serializeOptBool, jAsStrList_map_str]
      rfl
  | .mk k n (some u) none len q sc, fuel, h => by
    have hexp : jsize (serializeType (.mk k n (some u) none len q sc)) =
        1 + (1 + (jsize (serializeOptStr n) + (jsize (serializeType u) + (1 +
          (jsize (serializeOptInt len) + (jsize (Json.arr (q.map Json.str)) +
            (jsize (serializeOptBool sc) + 0))))))) := rfl
    rw [hexp] at h
    cases fuel with
    | zero => omega
    | succ f =>
      have hu : jsize (serializeType u) ≤ f := by omega
      have hstep : parse_ir_type_f (f + 1) (serializeType (.mk k n (some u) none len q sc)) =
          .mk (jAsStr (.str k) "") (jAsStrOpt (serializeOptStr n))
            (if jTruthy (serializeType u) then
              some (parse_ir_type_f f (serializeType u)) else none)
            (if jTruthy Json.null then some (parse_ir_type_f f Json.null) else none)
            (jAsIntOpt (serializeOptInt len))
            (jAsStrList (.arr (q.map Json.str)))
            (jAsBoolOpt (serializeOptBool sc)) := rfl
      rw [hstep, jAsStrOpt_serializeOptStr, jAsIntOpt_serializeOptInt,
        jAsBoolOpt_serializeOptBool, jAsStrList_map_str, jTruthy_serializeType u,
        if_pos rfl, parse_serializeType u f hu]
      rfl
  | .mk k n none (some e) len q sc, fuel, h => by
    have hexp : jsize (serializeType (.mk k n none (some e) len q sc)) =
        1 + (1 + (jsize (serializeOptStr n) + (1 + (jsize (serializeType e) +
          (jsize (serializeOptInt len) + (jsize (Json.arr (q.map Json.str)) +
            (jsize (serializeOptBool sc) + 0))))))) := rfl
    rw [hexp] at h
    cases fuel with
    | zero => omega
    | succ f =>
      have he : jsize (serializeType e) ≤ f := by omega
      have hstep : parse_ir_type_f (f + 1) (serializeType (.mk k n none (some e) len q sc)) =
          .mk (jAsStr (.str k) "") (jAsStrOpt (serializeOptStr n))
            (if jTruthy Json.null then some (parse_ir_type_f f Json.null) else none)
            (if jTruthy (serializeType e) then
              some (parse_ir_type_f f (serializeType e)) else none)
            (jAsIntOpt (serializeOptInt len))
            (jAsStrList (.arr (q.map Json.str)))
            (jAsBoolOpt (serializeOptBool sc)) := rfl
      rw [hstep, jAsStrOpt_serializeOptStr, jAsIntOpt_serializeOptInt,
        jAsBoolOpt_serializeOptBool, jAsStrList_map_str, jTruthy_serializeType e,
        if_pos rfl, parse_serializeType e f he]
      rfl
  | .mk k n (some u) (some e) len q sc, fuel, h => by
    have hexp : jsize (serializeType (.mk k n (some u) (some e) len q sc)) =
        1 + (1 + (jsize (serializeOptStr n) + (jsize (serializeType u) +
          (jsize (serializeType e) + (jsize (serializeOptInt len) +
            (jsize (Json.arr (q.map Json.str)) + (jsize (serializeOptBool sc) + 0))))))) := rfl
    rw [hexp] at h
    cases fuel with
    | zero => omega
    | succ f =>
      have hu : jsize (serializeType u) ≤ f := by omega
      have he : jsize (serializeType e) ≤ f := by omega
      have hstep : parse_ir_type_f (f + 1)
          (serializeType (.mk k n (some u) (some e) len q sc)) =
          .mk (jAsStr (.str k) "") (jAsStrOpt (serializeOptStr n))
            (if jTruthy (serializeType u) then
              some (parse_ir_type_f f (serializeType u)) else none)
            (if jTruthy (serializeType e) then
              some (parse_ir_type_f f (serializeType e)) else none)
            (jAsIntOpt (serializeOptInt len))
            (jAsStrList (.arr (q.map Json.str)))
            (jAsBoolOpt (serializeOptBool sc)) := rfl
      rw [hstep, jAsStrOpt_serializeOptStr, jAsIntOpt_serializeOptInt,
        jAsBoolOpt_serializeOptBool, jAsStrList_map_str, jTruthy_serializeType u,
        jTruthy_serializeType e, if_pos rfl, if_pos rfl,
        parse_serializeType u f hu, parse_serializeType e f he]
      rfl

theorem parse_ir_type_serializeType (t : IRType) :
    parse_ir_type (serializeType t) = t :=
  parse_serializeType t (jsize (serializeType t)) (Nat.le_refl _)

theorem parse_serializeField (f : IRField) : parse_ir_field (serializeField f) = f := by
  cases f with
  | mk n ty =>
    show ({ name := n, type := parse_ir_type (serializeType ty) } : IRField) = _
    rw [parse_ir_type_serializeType]

theorem parse_serializeEnumValue (v : IREnumValue) :
    parse_ir_enum_value (serializeEnumValue v) = v := by
  cases v with
  | mk n val => rfl

theorem parse_serializeParam (p : IRParam) : parse_ir_param (serializeParam p) = p := by
  cases p with
  | mk n ty nl dir =>
    show ({ name := n
            type := parse_ir_type (serializeType ty)
            nullable := nl
            direction := jAsStrOpt (serializeOptStr dir) } : IRParam) = _
    rw [parse_ir_type_serializeType, jAsStrOpt_serializeOptStr]

theorem map_parse_serializeField (l : List IRField) :
    (l.map serializeField).map parse_ir_field = l := by
  induction l with
  | nil => rfl
  | cons x xs ih => simp only [List.map_cons, parse_serializeField, ih]

theorem map_parse_serializeParam (l : List IRParam) :
    (l.map serializeParam).map parse_ir_param = l := by
  induction l with
  | nil => rfl
  | cons x xs ih => simp only [List.map_cons, parse_serializeParam, ih]

theorem map_parse_serializeEnumValue (l : List IREnumValue) :
    (l.map serializeEnumValue).map parse_ir_enum_value = l := by
  induction l with
  | nil => rfl
  | cons x xs ih => simp only [List.map_cons, parse_serializeEnumValue, ih]

theorem parse_serializeMethod (m : IRMethod) : parse_ir_method (serializeMethod m) = m := by
  cases m with
  | mk n rt ps k st c acc va =>
    show ({ name := n
            return_type := parse_ir_type (serializeType rt)
            params := (ps.map serializeParam).map parse_ir_param
            kind := k
            static := st
            const := c
            access := jAsStrOpt (serializeOptStr acc)
            variadic := va } : IRMethod) = _
    rw [parse_ir_type_serializeType, map_parse_serializeParam, jAsStrOpt_serializeOptStr]

theorem map_parse_serializeMethod (l : List IRMethod) :
    (l.map serializeMethod).map parse_ir_method = l := by
  induction l with
  | nil => rfl
  | cons x xs ih => simp only [List.map_cons, parse_serializeMethod, ih]

theorem parse_serializeStruct (s : IRStruct) :
    parse_ir_struct (serialize_item (.struct s)) = s := by
  cases s with
  | mk n fs qn =>
    show ({ name := n
            fields := (fs.map serializeField).map parse_ir_field
            qualified_name := jAsStrOpt (serializeOptStr qn) } : IRStruct) = _
    rw [map_parse_serializeField, jAsStrOpt_serializeOptStr]

theorem parse_serializeEnum (e : IREnum) :
    parse_ir_enum (serialize_item (.enum e)) = e := by
  cases e with
  | mk n vs sc qn =>
    show ({ name := n
            values := (vs.map serializeEnumValue).map parse_ir_enum_value
            scopedFlag := sc
            qualified_name := jAsStrOpt (serializeOptStr qn) } : IREnum) = _
    rw [map_parse_serializeEnumValue, jAsStrOpt_serializeOptStr]

theorem parse_serializeAlias (a : IRAlias) (t : IRType) (h : a.target = some t) :
    parse_ir_alias (serialize_item (.alias a)) = a := by
  cases a with
  | mk n tgt =>
    simp only [IRAlias.target] at h
    subst h
    show ({ name := n, target := some (parse_ir_type (serializeType t)) } : IRAlias) = _
    rw [parse_ir_type_serializeType]

theorem parse_serializeFunction (f : IRFunction) (t : IRType) (h : f.return_type = some t) :
    parse_ir_function (serialize_item (.func f)) = f := by
  cases f with
  | mk n rt ps cc va qn =>
    simp only [IRFunction.return_type] at h
    subst h
    show ({ name := n
            return_type := some (parse_ir_type (serializeType t))
            params := (ps.map serializeParam).map parse_ir_param
            callconv := jAsStrOpt (serializeOptStr cc)
            variadic := va
            qualified_name := jAsStrOpt (serializeOptStr qn) } : IRFunction) = _
    rw [parse_ir_type_serializeType, map_parse_serializeParam, jAsStrOpt_serializeOptStr,
      jAsStrOpt_serializeOptStr]

theorem parse_serializeClass (c : IRClass) :
    parse_ir_class (serialize_item (.cls c)) = c := by
  cases c with
  | mk n fs ms bs qn =>
    show ({ name := n
            fields := (fs.map serializeField).map parse_ir_field
            methods := (ms.map serializeMethod).map parse_ir_method
            bases := jAsStrList (.arr (bs.map Json.str))
            qualified_name := jAsStrOpt (serializeOptStr qn) } : IRClass) = _
    rw [map_parse_serializeField, map_parse_serializeMethod, jAsStrList_map_str,
      jAsStrOpt_serializeOptStr]

theorem parse_serializeConstant (c : IRConstant) (t : IRType) (h : c.type = some t) :
    parse_ir_constant (serialize_item (.const c)) = c := by
  cases c with
  | mk n ty v =>
    simp only [IRConstant.type] at h
    subst h
    show ({ name := n
            type := some (parse_ir_type (serializeType t))
            value := jAsPyVal (serializePyVal v) } : IRConstant) = _
    rw [parse_ir_type_serializeType, jAsPyVal_serializePyVal]

/-- The items on which the serializer's `asdict`/parse pair can be inverse:
the three `Optional[IRType]` item fields (`IRFunction.return_type`,
`IRAlias.target`, `IRConstant.type`) are present.  When one is `None`,
`_parse_ir_type` replaces it with `IRType(kind="void")` after the round
trip, which is the correction recorded by the C2 counterexample. -/
def itemTypesPresent : IRItem → Bool
  | .alias a => a.target.isSome
  | .func f => f.return_type.isSome
  | .const k => k.type.isSome
  | _ => true

def moduleTypesPresent (m : IRModule) : Bool :=
  m.files.all (fun pf => pf.2.items.all itemTypesPresent)

theorem parse_serialize_item (it : IRItem) (h : itemTypesPresent it = true) :
    parse_ir_item (serialize_item it) = .ok it := by
  rcases it with s | e | a | f | c | k
  · show Except.ok (IRItem.struct (parse_ir_struct (serialize_item (.struct s)))) = _
    rw [parse_serializeStruct]
  · show Except.ok (IRItem.enum (parse_ir_enum (serialize_item (.enum e)))) = _
    rw [parse_serializeEnum]
  · obtain ⟨t, ht⟩ := Option.isSome_iff_exists.mp h
    show Except.ok (IRItem.alias (parse_ir_alias (serialize_item (.alias a)))) = _
    rw [parse_serializeAlias a t ht]
  · obtain ⟨t, ht⟩ := Option.isSome_iff_exists.mp h
    show Except.ok (IRItem.func (parse_ir_function (serialize_item (.func f)))) = _
    rw [parse_serializeFunction f t ht]
  · show Except.ok (IRItem.cls (parse_ir_class (serialize_item (.cls c)))) = _
    rw [parse_serializeClass]
  · obtain ⟨t, ht⟩ := Option.isSome_iff_exists.mp h
    show Except.ok (IRItem.const (parse_ir_constant (serialize_item (.const k)))) = _
    rw [parse_serializeConstant k t ht]

theorem mapE_parse_serialize (items : List IRItem)
    (h : ∀ it ∈ items, itemTypesPresent it = true) :
    mapE parse_ir_item (items.map serialize_item) = .ok items := by
  induction items with
  | nil => rfl
  | cons it its ih =>
    rw [List.map_cons]
    unfold mapE
    rw [exceptBind_ok (parse_serialize_item it (h it (List.mem_cons_self it its))),
      exceptBind_ok (ih (fun x hx => h x (List.mem_cons.mpr (Or.inr hx))))]
    rfl

theorem parse_serialize_file (items : List IRItem)
    (h : ∀ it ∈ items, itemTypesPresent it = true) :
    parse_ir_file (items.map serialize_item) = .ok { items := items } := by
  unfold parse_ir_file
  rw [exceptBind_ok (mapE_parse_serialize items h)]
  rfl

theorem mapE_parse_files (files : List (String × IRFile))
    (h : ∀ pf ∈ files, ∀ it ∈ pf.2.items, itemTypesPresent it = true) :
    mapE (fun pf => do pure (pf.1, ← parse_ir_file pf.2))
      (files.map (fun pf => (pf.1, pf.2.items.map serialize_item))) = .ok files := by
  induction files with
  | nil => rfl
  | cons pf pfs ih =>
    obtain ⟨path, file⟩ := pf
    obtain ⟨items⟩ := file
    rw [List.map_cons]
    unfold mapE
    have hfile : (do pure ((path, items.map serialize_item).1,
        ← parse_ir_file (path, items.map serialize_item).2)
          : Except String (String × IRFile)) = .ok (path, { items := items }) := by
      show (do pure (path, ← parse_ir_file (items.map serialize_item))
        : Except String (String × IRFile)) = _
      rw [exceptBind_ok (parse_serialize_file items
        (h (path, { items := items }) (List.mem_cons_self _ _)))]
      rfl
    rw [exceptBind_ok hfile,
      exceptBind_ok (ih (fun x hx => h x (List.mem_cons.mpr (Or.inr hx))))]
    rfl

/-- **C2.** Corrected round-trip: `load_ir_json (dump_ir_json m) = m` holds
exactly on modules whose `Optional[IRType]` item fields are all present
(every function has a `return_type`, every alias a `target`, every constant
a `type`); the companion counterexample shows the unconditional claim fails
because `_parse_ir_type` turns an absent type into `IRType(kind="void")`. -/
theorem c2_round_trip (m : IRModule) (h : moduleTypesPresent m = true) :
    load_ir_json (dump_ir_json m) = .ok m := by
  cases m with
  | mk files =>
    simp only [moduleTypesPresent, List.all_eq_true] at h
    unfold load_ir_json dump_ir_json
    rw [exceptBind_ok (mapE_parse_files files h)]
    rfl

def c2ExampleModule : IRModule :=
  { files := [("geometry.h",
      { items := [
          .struct { name := "Point"
                    fields := [{ name := "x", type := .simple "double" }] },
          .enum { name := "Color", values := [{ name := "Red", value := 0 }] },
          .alias { name := "Id", target := some (.simple "int") },
          .func { name := "area"
                  return_type := some (.simple "double")
                  params := [{ name := "p", type := .mk "pointer" none (some (.simple "Point" (some "Point"))) none none ["const"] none }] },
          .cls { name := "Window"
                 methods := [{ name := "GetWidth", return_type := .simple "double" }] },
          .const { name := "MAX", type := some (.simple "int"), value := .int 7 }] })] }

/-- **C2** witness: the corrected round trip evaluated on a module with one
item of every kind (all optional type fields present). -/
theorem c2_round_trip_witness :
    moduleTypesPresent c2ExampleModule = true ∧
    load_ir_json (dump_ir_json c2ExampleModule) = .ok c2ExampleModule :=
  ⟨by decide, c2_round_trip c2ExampleModule (by decide)⟩

/-- **C2** counterexample to the unconditional claim: a function without a
return type does not survive the round trip — `_parse_ir_function` always
calls `_parse_ir_type`, which maps the serialized `null` to
`IRType(kind="void")`, so `return_type=None` comes back as a `void` type
(the same happens for alias targets and constant types). -/
theorem c2_round_trip_counterexample :
    load_ir_json (dump_ir_json
        { files := [("a.h", { items := [.func { name := "f" }] })] }) ≠
      Except.ok { files := [("a.h", { items := [.func { name := "f" }] })] } ∧
    load_ir_json (dump_ir_json
        { files := [("a.h", { items := [.func { name := "f" }] })] }) =
      Except.ok { files := [("a.h", { items := [.func { name := "f", return_type := some (.mk "void" none none none none [] none) }] })] } :=
  ⟨by decide, by decide⟩

/-! ## Claim C1: `build_context` determinism and concatenation order -/

theorem lookup_isSome_of_mem_keys {β : Type} (l : List (String × β)) (k : String)
    (h : k ∈ l.map Prod.fst) : (l.lookup k).isSome = true := by
  induction l with
  | nil => simp at h
  | cons kv t ih =>
    obtain ⟨k0, v0⟩ := kv
    simp only [List.map_cons, List.mem_cons] at h
    rcases h with rfl | h1
    · simp [List.lookup]
    · by_cases hk : (k == k0) = true
      · simp [List.lookup, hk]
      · simp only [List.lookup, Bool.not_eq_true] at hk ⊢
        rw [hk]
        exact ih h1

theorem lookup_eq_some_iff_mem {β : Type} (l : List (String × β))
    (hnd : (l.map Prod.fst).Nodup) (k : String) (v : β) :
    l.lookup k = some v ↔ (k, v) ∈ l := by
  induction l with
  | nil => simp [List.lookup]
  | cons kv t ih =>
    obtain ⟨k0, v0⟩ := kv
    simp only [List.map_cons, List.nodup_cons] at hnd
    obtain ⟨hk0, hndt⟩ := hnd
    by_cases hk : k = k0
    · subst hk
      simp only [List.lookup, beq_self_eq_true]
      constructor
      · intro h
        rw [show v0 = v from Option.some.inj h]
        exact List.mem_cons_self _ _
      · intro h
        rcases List.mem_cons.mp h with heq | hmem
        · rw [(Prod.mk.injEq .. ▸ heq : k = k ∧ v = v0).2]
        · exact absurd (List.mem_map_of_mem Prod.fst hmem) hk0
    · have hbk : (k == k0) = false := by simp [hk]
      simp only [List.lookup, hbk]
      rw [ih hndt]
      constructor
      · exact fun h => List.mem_cons.mpr (Or.inr h)
      · intro h
        rcases List.mem_cons.mp h with heq | hmem
        · exact absurd (congrArg Prod.fst heq) hk
        · exact hmem

theorem lookup_append_not_mem {β : Type} (pre l : List (String × β)) (k : String)
    (h : k ∉ pre.map Prod.fst) : (pre ++ l).lookup k = l.lookup k := by
  induction pre with
  | nil => rfl
  | cons kv t ih =>
    obtain ⟨k0, v0⟩ := kv
    simp only [List.map_cons, List.mem_cons, not_or] at h
    obtain ⟨hne, hnmem⟩ := h
    have hbk : (k == k0) = false := by simp [hne]
    simp only [List.cons_append, List.lookup, hbk]
    exact ih hnmem

theorem mapE_congr {α β : Type} (f g : α → Except String β) (l : List α)
    (h : ∀ x ∈ l, f x = g x) : mapE f l = mapE g l := by
  induction l with
  | nil => rfl
  | cons a as ih =>
    unfold mapE
    rw [h a (List.mem_cons_self a as), ih (fun x hx => h x (List.mem_cons.mpr (Or.inr hx)))]

/-- The per-path body of `build_context`'s first loop
(`mapped_files[path] = mapper.map_file(files[path])`). -/
def ctxMapF (cfg : MappingConfig) (files : List (String × IRFile)) (path : String) :
    Except String (String × MappedFile) := do
  let f ← dictGet files path
  pure (path, ← mapFile cfg f)

theorem build_context_eq (m : IRModule) (cfg : MappingConfig) :
    build_context m cfg =
      (do
        let mfs ← mapE (ctxMapF cfg m.files) (pySortedStr (m.files.map Prod.fst))
        let acc ← ctxLoop mfs {} (pySortedStr (m.files.map Prod.fst))
        pure { file_paths := pySortedStr (m.files.map Prod.fst)
               files := mfs
               items := acc.all_items
               types := acc.types
               enums := acc.enums
               functions := acc.functions
               classes := acc.classes
               constants := acc.constants
               aliases := acc.aliases }) := rfl

theorem mapE_ctxMapF_ok (cfg : MappingConfig) (files : List (String × IRFile)) :
    (S : List String) → (∀ p ∈ S, (files.lookup p).isSome = true) →
    ∃ mfs, mapE (ctxMapF cfg files) S = .ok mfs ∧ mfs.map Prod.fst = S ∧
      ∀ pf ∈ mfs, ∃ f, files.lookup pf.1 = some f ∧ mapFile cfg f = .ok pf.2
  | [], _ => ⟨[], rfl, rfl, by simp⟩
  | p :: ps, h => by
    obtain ⟨f, hf⟩ := Option.isSome_iff_exists.mp (h p (List.mem_cons_self p ps))
    obtain ⟨mf, hmf⟩ := mapFile_ok cfg f
    obtain ⟨mfs, hmfs, hfst, hsrc⟩ := mapE_ctxMapF_ok cfg files ps
      (fun q hq => h q (List.mem_cons.mpr (Or.inr hq)))
    have hdg : dictGet files p = .ok f := by unfold dictGet; rw [hf]
    have hF : ctxMapF cfg files p = .ok (p, mf) := by
      unfold ctxMapF
      rw [exceptBind_ok hdg, exceptBind_ok hmf]
      rfl
    refine ⟨(p, mf) :: mfs, ?_, ?_, ?_⟩
    · unfold mapE
      rw [exceptBind_ok hF, exceptBind_ok hmfs]
      rfl
    · simp [hfst]
    · intro pf hpf
      rcases List.mem_cons.mp hpf with rfl | hmem
      · exact ⟨f, hf, hmf⟩
      · exact hsrc pf hmem

theorem ctxLoop_suffix : (suf pre : List (String × MappedFile)) → (acc : CtxAcc) →
    ((pre ++ suf).map Prod.fst).Nodup →
    ctxLoop (pre ++ suf) acc (suf.map Prod.fst) =
      .ok (suf.foldl (fun (a : CtxAcc) pf => a.extend pf.2) acc)
  | [], _, _, _ => rfl
  | (k, mf) :: suf, pre, acc, hnd => by
    rw [List.map_cons]
    unfold ctxLoop
    have hknotin : k ∉ pre.map Prod.fst := by
      intro hk
      rw [List.map_append] at hnd
      exact List.disjoint_of_nodup_append hnd hk
        (by rw [List.map_cons]; exact List.mem_cons_self _ _)
    have hdg : dictGet (pre ++ (k, mf) :: suf) k = .ok mf := by
      unfold dictGet
      rw [lookup_append_not_mem pre _ k hknotin]
      simp [List.lookup]
    rw [exceptBind_ok hdg]
    have hre : pre ++ (k, mf) :: suf = (pre ++ [(k, mf)]) ++ suf := by simp
    rw [hre, ctxLoop_suffix suf (pre ++ [(k, mf)]) (acc.extend mf) (hre ▸ hnd)]
    rfl

theorem foldl_extend_eq : (mfs : List (String × MappedFile)) → (acc : CtxAcc) →
    mfs.foldl (fun (a : CtxAcc) pf => a.extend pf.2) acc =
      { all_items := acc.all_items ++ (mfs.map (fun pf => pf.2.items)).flatten
        types := acc.types ++ (mfs.map (fun pf => pf.2.types)).flatten
        enums := acc.enums ++ (mfs.map (fun pf => pf.2.enums)).flatten
        functions := acc.functions ++ (mfs.map (fun pf => pf.2.functions)).flatten
        classes := acc.classes ++ (mfs.map (fun pf => pf.2.classes)).flatten
        constants := acc.constants ++ (mfs.map (fun pf => pf.2.constants)).flatten
        aliases := acc.aliases ++ (mfs.map (fun pf => pf.2.aliases)).flatten }
  | [], acc => by cases acc; simp
  | pf :: mfs, acc => by
    rw [List.foldl_cons, foldl_extend_eq mfs (acc.extend pf.2)]
    cases acc
    simp [CtxAcc.extend, List.append_assoc]

theorem pySortedStr_eq_of_perm (l₁ l₂ : List String) (h : l₁.Perm l₂) :
    pySortedStr l₁ = pySortedStr l₂ := by
  haveI : IsAntisymm String (fun a b => strLeB a b = true) :=
    ⟨fun a b h1 h2 => strLeB_antisymm a b h1 h2⟩
  exact List.eq_of_perm_of_sorted
    (((perm_isort l₁).trans h).trans (perm_isort l₂).symm)
    (pairwise_isort strLeB_total strLeB_trans l₁)
    (pairwise_isort strLeB_total strLeB_trans l₂)

theorem files_perm_of_lookup_eq (l₁ l₂ : List (String × IRFile))
    (hnd₁ : (l₁.map Prod.fst).Nodup) (hnd₂ : (l₂.map Prod.fst).Nodup)
    (heq : ∀ k, l₁.lookup k = l₂.lookup k) : l₁.Perm l₂ := by
  rw [List.perm_ext_iff_of_nodup (hnd₁.of_map) (hnd₂.of_map)]
  intro a
  obtain ⟨k, v⟩ := a
  rw [← lookup_eq_some_iff_mem l₁ hnd₁ k v, ← lookup_eq_some_iff_mem l₂ hnd₂ k v, heq k]

/-- **C1.** `build_context` is deterministic and concatenates per kind: for two
modules with the same file-path-to-`IRFile` mapping (same keys with no
duplicates, any insertion order) both runs return the same context; its
`file_paths` are the lexicographically sorted keys, `files` is keyed by them
in that order with each file mapped through `map_file`, and every per-kind
list (`items`, `types`, `enums`, `functions`, `classes`, `constants`,
`aliases`) is the concatenation of that kind over `files` in sorted-path
order, preserving each file's intra-file item order. -/
theorem c1_build_context (m₁ m₂ : IRModule) (cfg : MappingConfig)
    (hnd₁ : (m₁.files.map Prod.fst).Nodup) (hnd₂ : (m₂.files.map Prod.fst).Nodup)
    (heq : ∀ k, m₁.files.lookup k = m₂.files.lookup k) :
    ∃ ctx, build_context m₁ cfg = .ok ctx ∧ build_context m₂ cfg = .ok ctx ∧
      ctx.file_paths = pySortedStr (m₁.files.map Prod.fst) ∧
      ctx.files.map Prod.fst = ctx.file_paths ∧
      (∀ pf ∈ ctx.files, ∃ f, m₁.files.lookup pf.1 = some f ∧ mapFile cfg f = .ok pf.2) ∧
      ctx.items = (ctx.files.map (fun pf => pf.2.items)).flatten ∧
      ctx.types = (ctx.files.map (fun pf => pf.2.types)).flatten ∧
      ctx.enums = (ctx.files.map (fun pf => pf.2.enums)).flatten ∧
      ctx.functions = (ctx.files.map (fun pf => pf.2.functions)).flatten ∧
      ctx.classes = (ctx.files.map (fun pf => pf.2.classes)).flatten ∧
      ctx.constants = (ctx.files.map (fun pf => pf.2.constants)).flatten ∧
      ctx.aliases = (ctx.files.map (fun pf => pf.2.aliases)).flatten := by
  have hperm := files_perm_of_lookup_eq m₁.files m₂.files hnd₁ hnd₂ heq
  have hS : pySortedStr (m₁.files.map Prod.fst) = pySortedStr (m₂.files.map Prod.fst) :=
    pySortedStr_eq_of_perm _ _ (hperm.map Prod.fst)
  have hF : ∀ p, ctxMapF cfg m₁.files p = ctxMapF cfg m₂.files p := by
    intro p
    unfold ctxMapF dictGet
    rw [heq p]
  have hdet : build_context m₁ cfg = build_context m₂ cfg := by
    rw [build_context_eq, build_context_eq, hS,
      mapE_congr (ctxMapF cfg m₁.files) (ctxMapF cfg m₂.files) _ (fun p _ => hF p)]
  have hSmem : ∀ p ∈ pySortedStr (m₁.files.map Prod.fst),
      (m₁.files.lookup p).isSome = true := by
    intro p hp
    exact lookup_isSome_of_mem_keys m₁.files p ((perm_isort _).mem_iff.mp hp)
  obtain ⟨mfs, hmfs, hfst, hsrc⟩ := mapE_ctxMapF_ok cfg m₁.files _ hSmem
  have hndS : (pySortedStr (m₁.files.map Prod.fst)).Nodup :=
    ((perm_isort _).nodup_iff).mpr hnd₁
  have hndmfs : (mfs.map Prod.fst).Nodup := by rw [hfst]; exact hndS
  have hloop : ctxLoop mfs {} (pySortedStr (m₁.files.map Prod.fst)) =
      .ok (mfs.foldl (fun (a : CtxAcc) pf => a.extend pf.2) {}) := by
    rw [← hfst]
    exact ctxLoop_suffix mfs [] {} (by simpa using hndmfs)
  have hok1 : build_context m₁ cfg =
      .ok { file_paths := pySortedStr (m₁.files.map Prod.fst)
            files := mfs
            items := (mfs.foldl (fun (a : CtxAcc) pf => a.extend pf.2) {}).all_items
            types := (mfs.foldl (fun (a : CtxAcc) pf => a.extend pf.2) {}).types
            enums := (mfs.foldl (fun (a : CtxAcc) pf => a.extend pf.2) {}).enums
            functions := (mfs.foldl (fun (a : CtxAcc) pf => a.extend pf.2) {}).functions
            classes := (mfs.foldl (fun (a : CtxAcc) pf => a.extend pf.2) {}).classes
            constants := (mfs.foldl (fun (a : CtxAcc) pf => a.extend pf.2) {}).constants
            aliases := (mfs.foldl (fun (a : CtxAcc) pf => a.extend pf.2) {}).aliases } := by
    rw [build_context_eq, exceptBind_ok hmfs, exceptBind_ok hloop]
    rfl
  refine ⟨_, hok1, hdet ▸ hok1, rfl, hfst, hsrc, ?_, ?_, ?_, ?_, ?_, ?_, ?_⟩ <;>
    simp [foldl_extend_eq mfs]
def c1FileA : IRFile :=
  { items := [.struct { name := "Pt" }, .enum { name := "E" }] }

def c1FileB : IRFile :=
  { items := [.func { name := "g", return_type := some (.simple "void") }] }

def c1ModA : IRModule := { files := [("b.h", c1FileB), ("a.h", c1FileA)] }

def c1ModB : IRModule := { files := [("a.h", c1FileA), ("b.h", c1FileB)] }

/-- **C1** witness: two modules holding the same two files in opposite
insertion orders satisfy the hypotheses and get one shared context. -/
theorem c1_build_context_witness :
    ((c1ModA.files.map Prod.fst).Nodup ∧ (c1ModB.files.map Prod.fst).Nodup ∧
      (∀ k, c1ModA.files.lookup k = c1ModB.files.lookup k)) ∧
    ∃ ctx, build_context c1ModA {} = .ok ctx ∧ build_context c1ModB {} = .ok ctx ∧
      ctx.file_paths = pySortedStr (c1ModA.files.map Prod.fst) ∧
      ctx.files.map Prod.fst = ctx.file_paths := by
  have hlk : ∀ k, c1ModA.files.lookup k = c1ModB.files.lookup k := by
    intro k
    show List.lookup k [("b.h", c1FileB), ("a.h", c1FileA)] =
      List.lookup k [("a.h", c1FileA), ("b.h", c1FileB)]
    by_cases h1 : k = "a.h"
    · subst h1; rfl
    · by_cases h2 : k = "b.h"
      · subst h2; rfl
      · have hb1 : (k == "a.h") = false := by simp [h1]
        have hb2 : (k == "b.h") = false := by simp [h2]
        simp [List.lookup, hb1, hb2]
  obtain ⟨ctx, hc1, hc2, hc3, hc4, _⟩ :=
    c1_build_context c1ModA c1ModB {} (by decide) (by decide) hlk
  exact ⟨⟨by decide, by decide, hlk⟩, ctx, hc1, hc2, hc3, hc4⟩

end Bindgen
